import Mathlib

/-!
Verification of the data-normalization and aggregation pipeline of
`customer_dashboard_streamlit/app.py` (function `load_data` and the
aggregation steps of `main`), as a shallow embedding.

Spreadsheet cells are modelled by an inductive `Cell`; a pandas
`DataFrame` is a list of labelled columns (labels may repeat, as they do
in pandas after `rename` maps two source columns to the same target).
Numeric values are exact rationals; calendar dates are records of
year/month/day.  Library behaviour of pandas that the pipeline relies on
(`to_numeric`, `to_datetime`, `cut`, `value_counts`, `cumsum`, csv
export) is modelled by small executable functions.
-/

deriving instance DecidableEq for Except

namespace Dashboard

/-! ### String helpers (Python `str.lower`, `str.strip`, `in`) -/

/-- Python `str.lower`, on the character list of a string. -/
def lowerChars (s : String) : List Char := s.data.map Char.toLower

/-- Python `str.strip`: drop whitespace from both ends. -/
def trimChars (l : List Char) : List Char :=
  ((l.dropWhile Char.isWhitespace).reverse.dropWhile Char.isWhitespace).reverse

/-- `str(c).strip()` applied to a column label. -/
def stripLabel (s : String) : String := ⟨trimChars s.data⟩

/-- `leadMatch n h` holds when `n` is an initial segment of `h`. -/
def leadMatch : List Char → List Char → Bool
  | [], _ => true
  | _ :: _, [] => false
  | a :: n, b :: h => a == b && leadMatch n h

/-- Python substring test `n in h`. -/
def containsSub (n : List Char) : List Char → Bool
  | [] => n.isEmpty
  | b :: h => leadMatch n (b :: h) || containsSub n h

/-! ### Calendar dates -/

/-- A calendar date, as produced by `pandas ... .dt.date`. -/
structure Date where
  year : Int
  month : Int
  day : Int
deriving DecidableEq

/-- Number of days since 1970-01-01 in the proleptic Gregorian calendar
(standard civil-calendar algorithm; `/` on `Int` rounds down here, so no
sign adjustments are needed). -/
def daysFromCivil (dt : Date) : Int :=
  let y := dt.year - (if dt.month ≤ 2 then 1 else 0)
  let era := y / 400
  let yoe := y - era * 400
  let mp := if 2 < dt.month then dt.month - 3 else dt.month + 9
  let doy := (153 * mp + 2) / 5 + dt.day - 1
  let doe := yoe * 365 + yoe / 4 - yoe / 100 + doy
  era * 146097 + doe - 719468

/-- Inverse of `daysFromCivil`: the calendar date of an epoch-day count.
Used to model `pd.to_datetime` applied to a raw number (interpreted as
nanoseconds since the epoch). -/
def civilFromDays (z : Int) : Date :=
  let z' := z + 719468
  let era := z' / 146097
  let doe := z' - era * 146097
  let yoe := (doe - doe / 1460 + doe / 36524 - doe / 146096) / 365
  let y := yoe + era * 400
  let doy := doe - (365 * yoe + yoe / 4 - yoe / 100)
  let mp := (5 * doy + 2) / 153
  let d := doy - (153 * mp + 2) / 5 + 1
  let m := if mp < 10 then mp + 3 else mp - 9
  ⟨y + (if m ≤ 2 then 1 else 0), m, d⟩

/-- The English weekday names in the order used by
`pandas.Series.dt.day_name` (Monday first). -/
def dayNames : List String :=
  ["Monday", "Tuesday", "Wednesday", "Thursday", "Friday", "Saturday", "Sunday"]

/-- `pd.to_datetime(d).dt.day_name()`: 1970-01-01 was a Thursday. -/
def weekdayName (d : Date) : String :=
  dayNames.getD ((daysFromCivil d + 3) % 7).toNat ""

/-- Sort key giving the chronological order of calendar dates
(lexicographic on year, month, day). -/
def dateKey (d : Date) : Int := d.year * 10000 + d.month * 100 + d.day

/-! ### Cells and the pandas conversions on them -/

/-- One spreadsheet cell, as delivered to / produced by the pipeline. -/
inductive Cell where
  | na                        -- missing (`NaN` / `NaT` / empty)
  | num (q : ℚ)               -- a raw numeric value
  | text (s : String)         -- a string value
  | dt (d : Date) (time : ℚ)  -- a datetime (date plus time-of-day fraction)
  | date (d : Date)           -- a `datetime.date` (after `.dt.date`)
  | int (n : Int)             -- an `int64` (after `.astype(int)`)
deriving DecidableEq

/-- `pd.isna` on a cell. -/
def Cell.isna : Cell → Bool
  | Cell.na => true
  | _ => false

/-- Decimal digit value of a character, if it is a digit. -/
def digitVal (c : Char) : Option Nat :=
  if c.isDigit then some (c.toNat - 48) else none

/-- Accumulating decimal parse of a digit run. -/
def parseNatAux : List Char → Nat → Option Nat
  | [], acc => some acc
  | c :: t, acc =>
    match digitVal c with
    | some d => parseNatAux t (acc * 10 + d)
    | none => none

/-- Parse a non-empty run of decimal digits. -/
def parseNatChars (l : List Char) : Option Nat :=
  if l.isEmpty then none else parseNatAux l 0

/-- Split a character list at the first dot. -/
def splitDot : List Char → List Char × Option (List Char)
  | [] => ([], none)
  | c :: t =>
    if c = '.' then ([], some t)
    else (c :: (splitDot t).1, (splitDot t).2)

/-- Parse an unsigned decimal literal (`"12"`, `"1.5"`, `".5"`, `"1."`)
as a numerator and a power-of-ten denominator. -/
def parseUnsigned (l : List Char) : Option (Nat × Nat) :=
  match splitDot l with
  | (ip, none) => (parseNatChars ip).map (fun n => (n, 1))
  | (ip, some fp) =>
    if ip.isEmpty && fp.isEmpty then none
    else
      match (if ip.isEmpty then some 0 else parseNatChars ip),
            (if fp.isEmpty then some 0 else parseNatChars fp) with
      | some n, some f => some (n * 10 ^ fp.length + f, 10 ^ fp.length)
      | _, _ => none

/-- Numeric parsing of a string, modelling what `pd.to_numeric` accepts:
an optional sign and a decimal literal.  `none` models coercion failure. -/
def parseNumChars : List Char → Option ℚ
  | [] => none
  | c :: t =>
    if c = '-' then (parseUnsigned t).map (fun p => mkRat (-(p.1 : Int)) p.2)
    else if c = '+' then (parseUnsigned t).map (fun p => mkRat (p.1 : Int) p.2)
    else (parseUnsigned (c :: t)).map (fun p => mkRat (p.1 : Int) p.2)

/-- Date parsing of a string, modelling `pd.to_datetime` on ISO
`YYYY-MM-DD` input; anything else is unparseable and `none` models the
`ValueError` that `pd.to_datetime` raises. -/
def parseDateChars (l : List Char) : Option Date :=
  match l with
  | [a, b, c, d, '-', e, f, '-', g, h] => do
    let va ← digitVal a
    let vb ← digitVal b
    let vc ← digitVal c
    let vd ← digitVal d
    let ve ← digitVal e
    let vf ← digitVal f
    let vg ← digitVal g
    let vh ← digitVal h
    let y : Int := (va * 1000 + vb * 100 + vc * 10 + vd : Nat)
    let m : Int := (ve * 10 + vf : Nat)
    let dy : Int := (vg * 10 + vh : Nat)
    if 1 ≤ m ∧ m ≤ 12 ∧ 1 ≤ dy ∧ dy ≤ 31 then some ⟨y, m, dy⟩ else none
  | _ => none

/-- Nanoseconds per day (`pd.to_datetime` reads bare numbers as
nanoseconds since the epoch). -/
def nsPerDay : Int := 86400 * 1000000000

/-- `pd.to_numeric(c, errors="coerce")` on one cell: `none` is `NaN`. -/
def toNumericQ : Cell → Option ℚ
  | Cell.na => none
  | Cell.num q => some q
  | Cell.text s => parseNumChars s.data
  | Cell.dt _ _ => none
  | Cell.date _ => none
  | Cell.int n => some (n : ℚ)

/-- `pd.to_datetime` on one cell: `none` models the raised error on an
unparseable value. -/
def toDatetime : Cell → Option (Date × ℚ)
  | Cell.na => none
  | Cell.num q => some (civilFromDays (Int.fdiv q.num ((q.den : Int) * nsPerDay)), 0)
  | Cell.text s => (parseDateChars s.data).map (fun d => (d, 0))
  | Cell.dt d t => some (d, t)
  | Cell.date d => some (d, 0)
  | Cell.int n => some (civilFromDays (Int.fdiv n nsPerDay), 0)

/-- `.astype(int)` on a float value: truncation toward zero. -/
def truncQ (q : ℚ) : Int := Int.tdiv q.num (q.den : Int)

/-! ### Frames (DataFrames) and the `load_data` pipeline -/

/-- A DataFrame: labelled columns in order.  Labels may repeat (pandas
allows duplicate column labels, which is what `rename` produces when two
source columns map to the same target). -/
abbrev Frame := List (String × List Cell)

/-- `df.columns`. -/
def labels (df : Frame) : List String := df.map (fun p => p.1)

/-- All columns of `df` carrying the label `l`, in order. -/
def colsWith (df : Frame) (l : String) : List (List Cell) :=
  (df.filter (fun p => p.1 == l)).map (fun p => p.2)

/-- `l in df.columns`. -/
def hasCol (df : Frame) (l : String) : Bool := !(colsWith df l).isEmpty

/-- `df[l]` used as a Series: with a duplicated label the selection is
two-dimensional and the surrounding `to_numeric` / `to_datetime` call
raises, which the error case models. -/
def getSeries (df : Frame) (l : String) : Except String (List Cell) :=
  match colsWith df l with
  | [c] => Except.ok c
  | _ => Except.error ("not a unique column: " ++ l)

/-- Replace the (unique) column labelled `l`. -/
def setCol (df : Frame) (l : String) (v : List Cell) : Frame :=
  df.map (fun p => if p.1 == l then (p.1, v) else p)

/-- The header-inference rule of `load_data` (lines 24-31): lower-case
the header, test for the substring "date", then "walk", then
"test" and "drive"; unmatched headers are left unchanged. -/
def renameLabel (c : String) : String :=
  let lc := lowerChars c
  if containsSub "date".data lc then "Date"
  else if containsSub "walk".data lc then "Walk-in Customer"
  else if containsSub "test".data lc && containsSub "drive".data lc then "Test Drive"
  else c

/-- `df.columns = [str(c).strip() for c in df.columns]`. -/
def stripCols (df : Frame) : Frame := df.map (fun p => (stripLabel p.1, p.2))

/-- `df.rename(columns=rename_map)`. -/
def renameCols (df : Frame) : Frame := df.map (fun p => (renameLabel p.1, p.2))

def requiredCols : List String := ["Date", "Walk-in Customer", "Test Drive"]

/-- `existing = [c for c in required_cols if c in df.columns]; df[existing]`:
the kept columns appear in the fixed `required_cols` order, and a
duplicated label contributes all its columns. -/
def selectRequired (df : Frame) : Frame :=
  (requiredCols.filter (fun l => hasCol df l)).flatMap
    (fun l => df.filter (fun p => p.1 == l))

/-- Row filtering by a boolean mask. -/
def maskFilter (mask : List Bool) (l : List Cell) : List Cell :=
  (List.zip mask l).filterMap (fun p => if p.1 then some p.2 else none)

/-- Elementwise fallible map (the first failure propagates, as a raised
exception does in a pandas conversion applied to a whole column). -/
def mapME {α β : Type} (f : α → Except String β) : List α → Except String (List β)
  | [] => Except.ok []
  | a :: t => do
    let b ← f a
    let bs ← mapME f t
    Except.ok (b :: bs)

/-- Elementwise partial map, failing as a whole when any element fails. -/
def mapMO {α β : Type} (f : α → Option β) : List α → Option (List β)
  | [] => some []
  | a :: t => do
    let b ← f a
    let bs ← mapMO f t
    some (b :: bs)

/-- Lines 40-42: drop rows whose `Date` is missing, then
`pd.to_datetime(df["Date"]).dt.date` (an unparseable value raises). -/
def cleanDate (df : Frame) : Except String Frame :=
  if hasCol df "Date" then do
    let col ← getSeries df "Date"
    let mask := col.map (fun c => !c.isna)
    let kept := maskFilter mask col
    let parsed ← mapME (fun c =>
      match toDatetime c with
      | some p => Except.ok (Cell.date p.1)
      | none => Except.error "unparseable date") kept
    Except.ok (setCol (df.map (fun p => (p.1, maskFilter mask p.2))) "Date" parsed)
  else Except.ok df

/-- Lines 44-56: `pd.to_numeric(col, errors="coerce").fillna(0).astype(int)`
for a count column. -/
def cleanCount (lbl : String) (df : Frame) : Except String Frame :=
  if hasCol df lbl then do
    let col ← getSeries df lbl
    Except.ok (setCol df lbl
      (col.map (fun c => Cell.int (truncQ ((toNumericQ c).getD 0)))))
  else Except.ok df

/-- The cell value seen by the row lambda of lines 60-65. -/
def cellNum : Cell → Except String ℚ
  | Cell.num q => Except.ok q
  | Cell.int n => Except.ok (n : ℚ)
  | _ => Except.error "non-numeric cell"

/-- The row lambda of lines 60-65. -/
def convRate (w t : ℚ) : ℚ := if 0 < w then t / w * 100 else 0

/-- Lines 59-65: append the derived `Conversion Rate` column when both
count columns are present. -/
def addConversion (df : Frame) : Except String Frame :=
  if hasCol df "Walk-in Customer" && hasCol df "Test Drive" then do
    let w ← getSeries df "Walk-in Customer"
    let t ← getSeries df "Test Drive"
    let wi ← mapME cellNum w
    let ti ← mapME cellNum t
    Except.ok (df ++ [("Conversion Rate",
      (List.zip wi ti).map (fun p => Cell.num (convRate p.1 p.2)))])
  else Except.ok df

/-- `load_data` (lines 16-67), from the frame delivered by `read_excel`. -/
def load_data (df : Frame) : Except String Frame := do
  let df1 := renameCols (stripCols df)
  let df2 := selectRequired df1
  let df3 ← cleanDate df2
  let df4 ← cleanCount "Walk-in Customer" df3
  let df5 ← cleanCount "Test Drive" df4
  addConversion df5

/-! ### The cleaned table viewed row-wise, and the aggregations of `main` -/

/-- One row of a fully-cleaned table (all four columns present). -/
structure Row where
  date : Date
  walkIns : Int
  testDrives : Int
  conv : ℚ
deriving DecidableEq

def asDate : Cell → Option Date
  | Cell.date d => some d
  | _ => none

def asInt : Cell → Option Int
  | Cell.int n => some n
  | _ => none

def asNum : Cell → Option ℚ
  | Cell.num q => some q
  | _ => none

/-- The unique column labelled `l`, with every cell read by `f`. -/
def colAs (df : Frame) (l : String) (f : Cell → Option α) : Option (List α) :=
  match colsWith df l with
  | [c] => mapMO f c
  | _ => none

/-- Read a cleaned frame as a list of typed rows. -/
def rowsOf (df : Frame) : Option (List Row) := do
  let ds ← colAs df "Date" asDate
  let ws ← colAs df "Walk-in Customer" asInt
  let ts ← colAs df "Test Drive" asInt
  let cs ← colAs df "Conversion Rate" asNum
  some ((List.zip (List.zip ds ws) (List.zip ts cs)).map
    (fun p => ⟨p.1.1, p.1.2, p.2.1, p.2.2⟩))

/-- The `weekday_order` literal of lines 167-175. -/
def weekdayOrder : List String :=
  ["Monday", "Tuesday", "Wednesday", "Thursday", "Friday", "Saturday", "Sunday"]

/-- One output row of the weekday aggregation. -/
structure AggRow where
  weekday : String
  walkSum : Int
  tdSum : Int
  avgConv : ℚ
deriving DecidableEq

/-- Lines 160-176: `groupby("Weekday").agg(sum, sum, mean)` followed by
`reindex(weekday_order).dropna(how="all")`: the groups are listed in the
fixed Monday→Sunday order and a weekday with no rows is dropped. -/
def weekdayAgg (rows : List Row) : List AggRow :=
  weekdayOrder.filterMap (fun w =>
    let g := rows.filter (fun r => weekdayName r.date == w)
    if g.isEmpty then none
    else some ⟨w, (g.map (fun r => r.walkIns)).sum,
                  (g.map (fun r => r.testDrives)).sum,
                  (g.map (fun r => r.conv)).sum / (g.length : ℚ)⟩)

/-- The `bins` literal of line 209 (`-0.1` as an exact rational). -/
def bins : List ℚ := [mkRat (-1) 10, 0, 10, 20, 30, 40, 100]

/-- The `labels` literal of line 210. -/
def bandLabels : List String := ["0%", "0–10%", "10–20%", "20–30%", "30–40%", "40%+"]

/-- `pd.cut(x, bins=bins, labels=labels)` on one value: the label of the
half-open interval `(bins[i], bins[i+1]]` containing it, `NaN` (`none`)
when the value lies outside every bin. -/
def convBand (q : ℚ) : Option String :=
  (List.zip (List.zip bins bins.tail) bandLabels).findSome?
    (fun p => if p.1.1 < q ∧ q ≤ p.1.2 then some p.2 else none)

/-- Lines 212-221: `value_counts` of the categorical band column followed
by `sort_index`: one count per label, in the fixed label order (a `NaN`
band, i.e. a value outside every bin, is counted nowhere). -/
def bandCounts (rates : List ℚ) : List (String × Nat) :=
  bandLabels.map (fun l =>
    (l, (rates.filter (fun q => convBand q == some l)).length))

/-- `df.sort_values("Date")` on the row view. -/
def sortByDate (rows : List Row) : List Row :=
  List.insertionSort (fun a b => dateKey a.date ≤ dateKey b.date) rows

/-- `Series.cumsum()`. -/
def cumsum (l : List Int) : List Int := (l.scanl (· + ·) 0).tail

/-- Lines 198-201: sort by date, then the two independent running sums. -/
def cumulative (rows : List Row) : List Int × List Int :=
  let s := sortByDate rows
  (cumsum (s.map (fun r => r.walkIns)), cumsum (s.map (fun r => r.testDrives)))

/-! ### CSV export (lines 228-233) and re-parsing -/

/-- `'0' + n` for a digit value. -/
def digitChr (n : Nat) : Char := Char.ofNat (48 + n)

/-- Two-digit zero-padded decimal, as in `str(date)`. -/
def pad2 (n : Nat) : List Char := [digitChr (n / 10 % 10), digitChr (n % 10)]

/-- Four-digit zero-padded decimal, as in `str(date)`. -/
def pad4 (n : Nat) : List Char :=
  [digitChr (n / 1000 % 10), digitChr (n / 100 % 10), digitChr (n / 10 % 10),
   digitChr (n % 10)]

/-- `str(d)` for a `datetime.date`: ISO `YYYY-MM-DD`. -/
def fmtDate (d : Date) : List Char :=
  pad4 d.year.toNat ++ '-' :: pad2 d.month.toNat ++ '-' :: pad2 d.day.toNat

/-- Decimal digits of a natural number (fuel-based so that it reduces). -/
def natDigitsAux : Nat → Nat → List Char
  | 0, _ => []
  | fuel + 1, n =>
    if n < 10 then [digitChr n]
    else natDigitsAux fuel (n / 10) ++ [digitChr (n % 10)]

/-- `str(n)` for a natural number. -/
def natDigits (n : Nat) : List Char := natDigitsAux (n + 1) n

/-- `str(n)` for an `int64`. -/
def intChars (n : Int) : List Char :=
  if n < 0 then '-' :: natDigits (-n).toNat else natDigits n.toNat

/-- Rendering of one cell in the csv text.  A non-integral rational is
rendered as a fraction; only the `Conversion Rate` column can hold one,
and that column is dropped again on re-parsing, so its exact rendering
is immaterial to the round-trip. -/
def fmtCell : Cell → List Char
  | Cell.na => []
  | Cell.num q => if q.den == 1 then intChars q.num
                  else intChars q.num ++ '/' :: natDigits q.den
  | Cell.text s => s.data
  | Cell.dt d _ => fmtDate d
  | Cell.date d => fmtDate d
  | Cell.int n => intChars n

/-- `df.to_csv(index=False)` as structured text: the header row (no index
column) followed by one row of rendered fields per table row. -/
def toCsvTable (df : Frame) : List (List String) :=
  let n := ((df.head?).map (fun p => p.2.length)).getD 0
  labels df ::
    (List.range n).map (fun i =>
      df.map (fun p => (⟨fmtCell (p.2.getD i Cell.na)⟩ : String)))

/-- The comma-separated text of the download button. -/
def csvText (df : Frame) : String :=
  String.intercalate "\n" ((toCsvTable df).map (fun r => String.intercalate "," r))

/-- One field as re-read from csv text: an empty field is missing,
anything else is a string cell. -/
def reparseCell (s : String) : Cell :=
  if s.data.isEmpty then Cell.na else Cell.text s

/-- Re-reading csv text as a frame of string cells. -/
def reparseFrame : List (List String) → Frame
  | [] => []
  | header :: rows =>
    (List.range header.length).map (fun j =>
      (header.getD j "", rows.map (fun r => reparseCell (r.getD j ""))))

/-- The shape of a fully-cleaned table: the four columns exactly as
`load_data` leaves them. -/
def cleanFrame (ds : List Date) (ws ts : List Int) : Frame :=
  [("Date", ds.map Cell.date),
   ("Walk-in Customer", ws.map Cell.int),
   ("Test Drive", ts.map Cell.int),
   ("Conversion Rate",
     (List.zip ws ts).map (fun p => Cell.num (convRate (p.1 : ℚ) (p.2 : ℚ))))]

/-! ### General lemmas about the pipeline steps -/

theorem ebind_ok {a : Type} {b : Type} (x : a) (f : a → Except String b) :
    (Except.ok x >>= f) = f x := rfl

theorem ebind_error {a : Type} {b : Type} (e : String) (f : a → Except String b) :
    ((Except.error e : Except String a) >>= f) = Except.error e := rfl

theorem obind_some {a : Type} {b : Type} (x : a) (f : a → Option b) :
    (some x >>= f) = f x := rfl

theorem obind_none {a : Type} {b : Type} (f : a → Option b) :
    ((none : Option a) >>= f) = none := rfl

theorem mapME_ok_of_forall {a b : Type} (f : a → Except String b) (g : a → b) :
    ∀ l : List a, (∀ x ∈ l, f x = Except.ok (g x)) → mapME f l = Except.ok (l.map g) := by
  intro l
  induction l with
  | nil => intro _; rfl
  | cons x t ih =>
    intro h
    have hx := h x (List.mem_cons_self x t)
    have ht := ih (fun y hy => h y (List.mem_cons_of_mem x hy))
    simp [mapME, hx, ht, ebind_ok]

theorem mapME_ok_iff {a b : Type} (f : a → Except String b) :
    ∀ (l : List a) (out : List b), mapME f l = Except.ok out ↔
      (out.length = l.length ∧ ∀ i x, l.get? i = some x → ∃ y, out.get? i = some y ∧ f x = Except.ok y) := by
  intro l
  induction l with
  | nil =>
    intro out
    constructor
    · intro h
      cases h' : out with
      | nil => simp [h']
      | cons y ys => simp [mapME] at h; simp [h] at h'
    · intro ⟨hl, _⟩
      cases out with
      | nil => rfl
      | cons y ys => simp at hl
  | cons x t ih =>
    intro out
    constructor
    · intro h
      cases hx : f x with
      | error e => simp [mapME, hx, ebind_error] at h
      | ok y =>
        simp only [mapME, hx, ebind_ok] at h
        cases ht : mapME f t with
        | error e => simp [ht, ebind_error] at h
        | ok ys =>
          simp only [ht, ebind_ok, Except.ok.injEq] at h
          obtain ⟨hlen, hpt⟩ := (ih ys).1 ht
          refine ⟨by simp [← h, hlen], ?_⟩
          intro i z hz
          cases i with
          | zero =>
            simp at hz
            exact ⟨y, by simp [← h], by rw [← hz]; exact hx⟩
          | succ j =>
            simp only [List.get?_cons_succ] at hz
            obtain ⟨w, hw, hfw⟩ := hpt j z hz
            refine ⟨w, ?_, hfw⟩
            simp only [← h]
            simpa using hw
    · intro ⟨hlen, hpt⟩
      cases out with
      | nil => simp at hlen
      | cons y ys =>
        obtain ⟨y', hy', hfy⟩ := hpt 0 x (by simp)
        simp only [List.get?_cons_zero, Option.some.injEq] at hy'
        have ht : mapME f t = Except.ok ys := by
          refine (ih ys).2 ⟨by simpa using hlen, ?_⟩
          intro i z hz
          exact hpt (i + 1) z (by simpa using hz)
        simp [mapME, hfy, ht, ebind_ok, hy']

theorem mapMO_some_of_forall {a b : Type} (f : a → Option b) (g : a → b) :
    ∀ l : List a, (∀ x ∈ l, f x = some (g x)) → mapMO f l = some (l.map g) := by
  intro l
  induction l with
  | nil => intro _; rfl
  | cons x t ih =>
    intro h
    have hx := h x (List.mem_cons_self x t)
    have ht := ih (fun y hy => h y (List.mem_cons_of_mem x hy))
    simp [mapMO, hx, ht]

theorem mapMO_asInt_inv : ∀ (l : List Cell) (ws : List Int),
    mapMO asInt l = some ws → l = ws.map Cell.int := by
  intro l
  induction l with
  | nil => intro ws h; simp [mapMO] at h; simp [← h]
  | cons c t ih =>
    intro ws h
    cases hc : asInt c with
    | none => simp [mapMO, hc] at h
    | some n =>
      cases ht : mapMO asInt t with
      | none => simp [mapMO, hc, ht] at h
      | some ts =>
        simp only [mapMO, hc, ht, obind_some, Option.some.injEq] at h
        cases c <;> simp [asInt] at hc
        subst hc
        simp [← h, ih ts ht]

theorem setCol_cons (p : String × List Cell) (t : Frame) (l : String) (v : List Cell) :
    setCol (p :: t) l v = (if p.1 == l then (p.1, v) else p) :: setCol t l v := rfl

theorem labels_setCol (df : Frame) (l : String) (v : List Cell) :
    labels (setCol df l v) = labels df := by
  induction df with
  | nil => rfl
  | cons p t ih =>
    rw [setCol_cons]
    by_cases h : p.1 == l
    · simpa [labels, h] using ih
    · simpa [labels, h] using ih

theorem labels_mapSnd (df : Frame) (f : String × List Cell → List Cell) :
    labels (df.map (fun p => (p.1, f p))) = labels df := by
  simp [labels]

theorem cleanDate_ok_labels {df out : Frame} (h : cleanDate df = Except.ok out) :
    labels out = labels df := by
  unfold cleanDate at h
  split at h
  · cases hs : getSeries df "Date" with
    | error e => rw [hs] at h; simp [ebind_error] at h
    | ok col =>
      rw [hs] at h
      simp only [ebind_ok] at h
      cases hm : mapME (fun c =>
          match toDatetime c with
          | some p => Except.ok (Cell.date p.1)
          | none => Except.error "unparseable date")
          (maskFilter (col.map (fun c => !c.isna)) col) with
      | error e => rw [hm, ebind_error] at h; simp at h
      | ok parsed =>
        rw [hm, ebind_ok] at h
        simp only [Except.ok.injEq] at h
        rw [← h, labels_setCol, labels_mapSnd]
  · simp only [Except.ok.injEq] at h
    rw [← h]

theorem cleanCount_ok_labels {lbl : String} {df out : Frame}
    (h : cleanCount lbl df = Except.ok out) : labels out = labels df := by
  unfold cleanCount at h
  split at h
  · cases hs : getSeries df lbl with
    | error e => rw [hs] at h; simp [ebind_error] at h
    | ok col =>
      rw [hs] at h
      simp only [ebind_ok, Except.ok.injEq] at h
      rw [← h, labels_setCol]
  · simp only [Except.ok.injEq] at h
    rw [← h]

theorem maskFilter_nil (mask : List Bool) : maskFilter mask [] = [] := by
  cases mask <;> rfl

theorem maskFilter_cons (m : Bool) (mask : List Bool) (c : Cell) (v : List Cell) :
    maskFilter (m :: mask) (c :: v) =
      if m then c :: maskFilter mask v else maskFilter mask v := by
  by_cases h : m <;> simp [maskFilter, List.zip, h]

theorem maskFilter_self (f : Cell → Bool) : ∀ l : List Cell,
    maskFilter (l.map f) l = l.filter f := by
  intro l
  induction l with
  | nil => rfl
  | cons c t ih =>
    rw [List.map_cons, maskFilter_cons]
    by_cases h : f c <;> simp [List.filter, h, ih]

theorem maskFilter_length (f : Cell → Bool) : ∀ (l v : List Cell),
    v.length = l.length →
    (maskFilter (l.map f) v).length = (l.filter f).length := by
  intro l
  induction l with
  | nil => intro v hv; simp [List.length_eq_zero] at hv; simp [hv, maskFilter_nil]
  | cons c t ih =>
    intro v hv
    cases v with
    | nil => simp at hv
    | cons b u =>
      simp only [List.length_cons, Nat.succ.injEq] at hv
      rw [List.map_cons, maskFilter_cons]
      by_cases h : f c <;> simp [List.filter, h, ih u hv]

theorem getSeries_ok_iff (df : Frame) (l : String) (col : List Cell) :
    getSeries df l = Except.ok col ↔ colsWith df l = [col] := by
  unfold getSeries
  cases h : colsWith df l with
  | nil => simp
  | cons c t => cases t <;> simp

theorem colsWith_cons (p : String × List Cell) (t : Frame) (l : String) :
    colsWith (p :: t) l = if p.1 == l then p.2 :: colsWith t l else colsWith t l := by
  unfold colsWith
  by_cases h : p.1 == l <;> simp [List.filter, h]

theorem colsWith_length_count (df : Frame) (l : String) :
    (colsWith df l).length = (labels df).count l := by
  induction df with
  | nil => rfl
  | cons p t ih =>
    rw [colsWith_cons]
    by_cases h : p.1 == l
    · have : l = p.1 := (beq_iff_eq.mp h).symm
      simp [labels, List.count_cons, ← this, ih]
    · have : ¬ l = p.1 := fun he => by simp [he] at h
      simp [labels, List.count_cons, this, ih, h]

theorem hasCol_iff (df : Frame) (l : String) :
    hasCol df l = true ↔ colsWith df l ≠ [] := by
  unfold hasCol
  cases colsWith df l <;> simp

/-- The labels of the selected frame: for each present required label, one
copy per column carrying it. -/
theorem selectRequired_labels (df : Frame) :
    labels (selectRequired df) =
      (requiredCols.filter (fun l => hasCol df l)).flatMap
        (fun l => List.replicate (colsWith df l).length l) := by
  unfold selectRequired labels
  rw [List.map_flatMap]
  congr 1
  funext l
  induction df with
  | nil => rfl
  | cons p t ih =>
    by_cases h : p.1 == l
    · have he : p.1 = l := beq_iff_eq.mp h
      simp [List.filter, h, colsWith_cons, List.replicate, he, ih]
    · simp [List.filter, h, colsWith_cons, ih]

theorem flatMap_sublist_of_forall {α : Type} (f : α → List α) :
    ∀ L : List α, (∀ l ∈ L, List.Sublist (f l) [l]) → List.Sublist (L.flatMap f) L := by
  intro L
  induction L with
  | nil => intro _; simp
  | cons a t ih =>
    intro h
    rw [List.flatMap_cons]
    have ha := h a (List.mem_cons_self a t)
    have ht := ih (fun x hx => h x (List.mem_cons_of_mem a hx))
    have s1 : List.Sublist (f a ++ t.flatMap f) ([a] ++ t.flatMap f) :=
      List.Sublist.append_right ha _
    have s2 : List.Sublist ([a] ++ t.flatMap f) ([a] ++ t) :=
      List.Sublist.append_left ht _
    exact s1.trans s2

theorem replicate_sublist_singleton {α : Type} (n : Nat) (a : α) (h : n ≤ 1) :
    List.Sublist (List.replicate n a) [a] := by
  match n, h with
  | 0, _ => simp
  | 1, _ => simp

/-- `addConversion` either keeps the labels or appends the derived one. -/
theorem addConversion_ok_labels {df out : Frame}
    (h : addConversion df = Except.ok out) :
    labels out = labels df ∨ labels out = labels df ++ ["Conversion Rate"] := by
  unfold addConversion at h
  split at h
  · cases hw : getSeries df "Walk-in Customer" with
    | error e => rw [hw] at h; simp [ebind_error] at h
    | ok w =>
      rw [hw] at h
      simp only [ebind_ok] at h
      cases ht : getSeries df "Test Drive" with
      | error e => rw [ht] at h; simp [ebind_error] at h
      | ok t =>
        rw [ht] at h
        simp only [ebind_ok] at h
        cases hwi : mapME cellNum w with
        | error e => rw [hwi] at h; simp [ebind_error] at h
        | ok wi =>
          rw [hwi] at h
          simp only [ebind_ok] at h
          cases hti : mapME cellNum t with
          | error e => rw [hti] at h; simp [ebind_error] at h
          | ok ti =>
            rw [hti] at h
            simp only [ebind_ok, Except.ok.injEq] at h
            right
            rw [← h]
            simp [labels]
  · left
    simp only [Except.ok.injEq] at h
    rw [← h]

/-- Counts of a required label survive `cleanDate` and `cleanCount`. -/
theorem cleanDate_ok_count {df out : Frame} (h : cleanDate df = Except.ok out)
    (l : String) : (colsWith out l).length = (colsWith df l).length := by
  rw [colsWith_length_count, colsWith_length_count, cleanDate_ok_labels h]

theorem cleanCount_ok_count {lbl : String} {df out : Frame}
    (h : cleanCount lbl df = Except.ok out) (l : String) :
    (colsWith out l).length = (colsWith df l).length := by
  rw [colsWith_length_count, colsWith_length_count, cleanCount_ok_labels h]

/-- A successful `cleanDate` forces at most one `Date` column. -/
theorem cleanDate_ok_date_unique {df out : Frame}
    (h : cleanDate df = Except.ok out) : (colsWith df "Date").length ≤ 1 := by
  unfold cleanDate at h
  split at h
  · cases hs : getSeries df "Date" with
    | error e => rw [hs] at h; simp [ebind_error] at h
    | ok col => rw [(getSeries_ok_iff df "Date" col).mp hs]; simp
  · rename_i hc
    have : colsWith df "Date" = [] := by
      cases hcw : colsWith df "Date" with
      | nil => rfl
      | cons c t => rw [hasCol_iff] at hc; simp [hcw] at hc
    simp [this]

theorem cleanCount_ok_unique {lbl : String} {df out : Frame}
    (h : cleanCount lbl df = Except.ok out) : (colsWith df lbl).length ≤ 1 := by
  unfold cleanCount at h
  split at h
  · cases hs : getSeries df lbl with
    | error e => rw [hs] at h; simp [ebind_error] at h
    | ok col => rw [(getSeries_ok_iff df lbl col).mp hs]; simp
  · rename_i hc
    have : colsWith df lbl = [] := by
      cases hcw : colsWith df lbl with
      | nil => rfl
      | cons c t => rw [hasCol_iff] at hc; simp [hcw] at hc
    simp [this]

theorem colsWith_append (d1 d2 : Frame) (l : String) :
    colsWith (d1 ++ d2) l = colsWith d1 l ++ colsWith d2 l := by
  simp [colsWith, List.filter_append]

theorem colsWith_filter_self (df : Frame) (x l : String) :
    colsWith (df.filter (fun p => p.1 == x)) l =
      if x = l then colsWith df l else [] := by
  unfold colsWith
  rw [List.filter_filter]
  by_cases hxl : x = l
  · subst hxl
    rw [if_pos rfl]
    congr 1
    apply List.filter_congr
    intro p _
    cases hp : p.1 == x <;> simp [hp]
  · rw [if_neg hxl]
    have hfalse : ∀ p ∈ df, ((p.1 == l) && (p.1 == x)) = false := by
      intro p _
      cases hpx : p.1 == x
      · simp
      · have hx : p.1 = x := beq_iff_eq.mp hpx
        have : (p.1 == l) = false := by
          simp [hx, hxl]
        simp [this]
    rw [List.filter_congr hfalse]
    simp

theorem colsWith_flatMap (F : List String) (df : Frame) (l : String) (h : F.Nodup) :
    colsWith (F.flatMap (fun x => df.filter (fun p => p.1 == x))) l =
      if l ∈ F then colsWith df l else [] := by
  induction F with
  | nil => simp [colsWith]
  | cons x F' ih =>
    rw [List.flatMap_cons, colsWith_append, colsWith_filter_self,
      ih (List.Nodup.of_cons h)]
    by_cases hxl : x = l
    · have hnm : l ∉ F' := by
        rw [← hxl]; exact (List.nodup_cons.mp h).1
      have hmem : l ∈ x :: F' := by rw [← hxl]; exact List.mem_cons_self x F'
      simp [hxl, hnm, hmem]
    · by_cases hm : l ∈ F'
      · have hmem : l ∈ x :: F' := List.mem_cons_of_mem x hm
        simp [hxl, hm, hmem]
      · have hnm : l ∉ x :: F' := by
          intro hc
          rcases List.mem_cons.mp hc with h1 | h2
          · exact hxl h1.symm
          · exact hm h2
        simp [hxl, hm, hnm]

theorem selectRequired_colsWith (df : Frame) (l : String) (hl : l ∈ requiredCols) :
    colsWith (selectRequired df) l =
      if hasCol df l then colsWith df l else [] := by
  unfold selectRequired
  rw [colsWith_flatMap _ df l
    (List.Nodup.filter _ (by unfold requiredCols; decide))]
  by_cases hc : hasCol df l
  · simp [List.mem_filter, hl, hc]
  · simp [List.mem_filter, hc]

theorem colsWith_setCol (df : Frame) (lbl l : String) (v : List Cell) :
    colsWith (setCol df lbl v) l =
      if lbl = l then List.replicate (colsWith df lbl).length v
      else colsWith df l := by
  induction df with
  | nil => by_cases h : lbl = l <;> simp [setCol, colsWith, h]
  | cons p t ih =>
    rw [setCol_cons]
    by_cases hll : lbl = l
    · subst hll
      rw [if_pos rfl] at ih ⊢
      by_cases hpl : p.1 = lbl
      · have hb : (p.1 == lbl) = true := by simp [hpl]
        simp only [hb, if_true, colsWith_cons, hpl]
        simp [ih, List.replicate_succ, hb]
      · have hb : (p.1 == lbl) = false := by simp [hpl]
        simp only [hb, Bool.false_eq_true, if_false, colsWith_cons]
        simp [hb, ih]
    · rw [if_neg hll] at ih ⊢
      by_cases hpl : p.1 = lbl
      · have hb : (p.1 == lbl) = true := by simp [hpl]
        have hbl : (p.1 == l) = false := by
          simp [hpl, hll]
        simp only [hb, if_true, colsWith_cons]
        simp [hbl, ih]
      · have hb : (p.1 == lbl) = false := by simp [hpl]
        simp only [hb, Bool.false_eq_true, if_false, colsWith_cons]
        by_cases hbl : p.1 = l
        · have hbl' : (p.1 == l) = true := by simp [hbl]
          simp [hbl', ih]
        · have hbl' : (p.1 == l) = false := by simp [hbl]
          simp [hbl', ih]

theorem colsWith_mapSnd (df : Frame) (g : List Cell → List Cell) (l : String) :
    colsWith (df.map (fun p => (p.1, g p.2))) l = (colsWith df l).map g := by
  induction df with
  | nil => rfl
  | cons p t ih =>
    rw [List.map_cons, colsWith_cons, colsWith_cons]
    by_cases h : (p.1 == l) = true
    · simp only [h, if_true, List.map_cons]
      simp [ih]
    · simp only [h]
      simp [ih, h]

/-- The `Date`-cleaning step leaves a column with another label as the
mask-filtered original. -/
theorem cleanDate_ok_colsWith_ne {df out : Frame} {col : List Cell}
    (hs : getSeries df "Date" = Except.ok col)
    (h : cleanDate df = Except.ok out) (l : String) (hne : l ≠ "Date") :
    colsWith out l =
      (colsWith df l).map (maskFilter (col.map (fun c => !c.isna))) := by
  unfold cleanDate at h
  have hc : hasCol df "Date" = true := by
    rw [hasCol_iff, (getSeries_ok_iff df "Date" col).mp hs]
    simp
  rw [if_pos hc, hs] at h
  simp only [ebind_ok] at h
  cases hm : mapME (fun c =>
      match toDatetime c with
      | some p => Except.ok (Cell.date p.1)
      | none => Except.error "unparseable date")
      (maskFilter (col.map (fun c => !c.isna)) col) with
  | error e => rw [hm, ebind_error] at h; simp at h
  | ok parsed =>
    rw [hm, ebind_ok] at h
    simp only [Except.ok.injEq] at h
    rw [← h, colsWith_setCol, if_neg (fun he => hne he.symm)]
    exact colsWith_mapSnd df _ l

/-- On success, `cleanCount lbl` rewrites exactly the unique `lbl` column
by the coercion map and leaves every other column unchanged. -/
theorem cleanCount_ok_spec {lbl : String} {df out : Frame} {col : List Cell}
    (hs : getSeries df lbl = Except.ok col)
    (h : cleanCount lbl df = Except.ok out) :
    colsWith out lbl =
      [col.map (fun c => Cell.int (truncQ ((toNumericQ c).getD 0)))] ∧
    ∀ l, l ≠ lbl → colsWith out l = colsWith df l := by
  unfold cleanCount at h
  have hcw : colsWith df lbl = [col] := (getSeries_ok_iff df lbl col).mp hs
  have hc : hasCol df lbl = true := by rw [hasCol_iff, hcw]; simp
  rw [if_pos hc, hs] at h
  simp only [ebind_ok, Except.ok.injEq] at h
  constructor
  · rw [← h, colsWith_setCol, if_pos rfl, hcw]
    simp [List.replicate]
  · intro l hne
    rw [← h, colsWith_setCol, if_neg (fun he => hne he.symm)]

theorem cleanCount_skip {lbl : String} {df : Frame}
    (hc : hasCol df lbl = false) : cleanCount lbl df = Except.ok df := by
  unfold cleanCount
  rw [if_neg (by simp [hc])]

/-! ### Claim C10: rule precedence in header inference -/

/-- C10: a source header is mapped by a fixed rule precedence — the
"date" substring test comes first, then "walk", then "test" together
with "drive" — so a header containing both "walk" and "date" (such as
"Walk-in Date") maps to `Date`, not to `Walk-in Customer`. -/
theorem c10_rule_precedence (c : String) :
    (containsSub "date".data (lowerChars c) = true → renameLabel c = "Date") ∧
    (containsSub "date".data (lowerChars c) = false →
      containsSub "walk".data (lowerChars c) = true →
      renameLabel c = "Walk-in Customer") ∧
    (containsSub "date".data (lowerChars c) = false →
      containsSub "walk".data (lowerChars c) = false →
      containsSub "test".data (lowerChars c) = true →
      containsSub "drive".data (lowerChars c) = true →
      renameLabel c = "Test Drive") := by
  refine ⟨fun h1 => ?_, fun h1 h2 => ?_, fun h1 h2 h3 h4 => ?_⟩ <;>
    unfold renameLabel <;> simp [h1]
  · simp [h2]
  · simp [h2, h3, h4]

/-- Witness for C10 at the header "Walk-in Date": it contains both
"walk" and "date" and maps to `Date`. -/
theorem c10_rule_precedence_witness :
    containsSub "walk".data (lowerChars "Walk-in Date") = true ∧
    containsSub "date".data (lowerChars "Walk-in Date") = true ∧
    renameLabel "Walk-in Date" = "Date" :=
  ⟨by decide, by decide, (c10_rule_precedence "Walk-in Date").1 (by decide)⟩

/-! ### Claim C5: output column order -/

/-- C5 (amended): the columns of a successful `load_data` output appear
in the fixed order `Date`, `Walk-in Customer`, `Test Drive`,
`Conversion Rate` (restricted to those present) — the relative order of
the matching columns in the source is NOT preserved. -/
theorem c5_output_order_fixed (df out : Frame) (h : load_data df = Except.ok out) :
    List.Sublist (labels out)
      ["Date", "Walk-in Customer", "Test Drive", "Conversion Rate"] := by
  unfold load_data at h
  simp only [] at h
  cases h3 : cleanDate (selectRequired (renameCols (stripCols df))) with
  | error e => rw [h3] at h; simp [ebind_error] at h
  | ok df3 =>
    rw [h3] at h
    simp only [ebind_ok] at h
    cases h4 : cleanCount "Walk-in Customer" df3 with
    | error e => rw [h4] at h; simp [ebind_error] at h
    | ok df4 =>
      rw [h4] at h
      simp only [ebind_ok] at h
      cases h5 : cleanCount "Test Drive" df4 with
      | error e => rw [h5] at h; simp [ebind_error] at h
      | ok df5 =>
        rw [h5] at h
        simp only [ebind_ok] at h
        -- counts of each required label in the selected frame are ≤ 1
        have cDate : (colsWith (selectRequired (renameCols (stripCols df))) "Date").length ≤ 1 :=
          cleanDate_ok_date_unique h3
        have cWalk : (colsWith (selectRequired (renameCols (stripCols df))) "Walk-in Customer").length ≤ 1 := by
          rw [← cleanDate_ok_count h3]
          exact cleanCount_ok_unique h4
        have cTest : (colsWith (selectRequired (renameCols (stripCols df))) "Test Drive").length ≤ 1 := by
          rw [← cleanDate_ok_count h3, ← cleanCount_ok_count h4]
          exact cleanCount_ok_unique h5
        -- hence the selected labels are a sublist of the required order
        have hsel : List.Sublist (labels (selectRequired (renameCols (stripCols df)))) requiredCols := by
          rw [selectRequired_labels]
          have hsub : List.Sublist
              ((requiredCols.filter (fun l => hasCol (renameCols (stripCols df)) l)).flatMap
                (fun l => List.replicate (colsWith (renameCols (stripCols df)) l).length l))
              (requiredCols.filter (fun l => hasCol (renameCols (stripCols df)) l)) := by
            apply flatMap_sublist_of_forall
            intro l hlmem
            have hlreq : l ∈ requiredCols := (List.mem_filter.mp hlmem).1
            have hhas : hasCol (renameCols (stripCols df)) l = true :=
              (List.mem_filter.mp hlmem).2
            apply replicate_sublist_singleton
            have heq : colsWith (selectRequired (renameCols (stripCols df))) l =
                colsWith (renameCols (stripCols df)) l := by
              rw [selectRequired_colsWith _ _ hlreq, if_pos hhas]
            fin_cases hlreq
            · rw [← heq]; exact cDate
            · rw [← heq]; exact cWalk
            · rw [← heq]; exact cTest
          exact hsub.trans (List.filter_sublist _)
        have hlab5 : labels df5 = labels (selectRequired (renameCols (stripCols df))) := by
          rw [cleanCount_ok_labels h5, cleanCount_ok_labels h4, cleanDate_ok_labels h3]
        rcases addConversion_ok_labels h with hout | hout
        · rw [hout, hlab5]
          have : List.Sublist requiredCols
              ["Date", "Walk-in Customer", "Test Drive", "Conversion Rate"] := by
            unfold requiredCols; decide
          exact hsel.trans this
        · rw [hout, hlab5]
          have : ["Date", "Walk-in Customer", "Test Drive", "Conversion Rate"] =
              requiredCols ++ ["Conversion Rate"] := by unfold requiredCols; rfl
          rw [this]
          exact List.Sublist.append hsel (List.Sublist.refl _)

/-- Counterexample input for C5: the source order of the matching
columns is test-drive, walk-in, date. -/
def cex5 : Frame :=
  [("Test-Drive Count", [Cell.num 1]),
   ("Walk-ins", [Cell.num 2]),
   ("Visit Date", [Cell.dt ⟨2024, 1, 1⟩ 0])]

/-- Counterexample for C5 as stated: for `cex5` the matching source
columns (after renaming) appear in the order test-drive, walk-in, date,
but the output columns come in the fixed order date, walk-in,
test-drive, conversion — not in the source's relative order. -/
theorem c5_output_order_counterexample :
    (labels (renameCols (stripCols cex5))).filter (fun l => requiredCols.contains l) =
      ["Test Drive", "Walk-in Customer", "Date"] ∧
    Except.map labels (load_data cex5) =
      Except.ok ["Date", "Walk-in Customer", "Test Drive", "Conversion Rate"] ∧
    ¬ List.Sublist ["Test Drive", "Walk-in Customer", "Date"]
      ["Date", "Walk-in Customer", "Test Drive", "Conversion Rate"] := by
  refine ⟨by decide, ?_, by decide⟩
  decide

/-- Witness for the amended C5 at a concrete one-column input. -/
theorem c5_output_order_witness :
    load_data [("Visit Date", [Cell.dt ⟨2024, 1, 1⟩ 0])] =
      Except.ok [("Date", [Cell.date ⟨2024, 1, 1⟩])] ∧
    List.Sublist (labels [("Date", [Cell.date ⟨2024, 1, 1⟩])])
      ["Date", "Walk-in Customer", "Test Drive", "Conversion Rate"] := by
  have h : load_data [("Visit Date", [Cell.dt ⟨2024, 1, 1⟩ 0])] =
      Except.ok [("Date", [Cell.date ⟨2024, 1, 1⟩])] := by decide
  exact ⟨h, c5_output_order_fixed _ _ h⟩

/-! ### Claim C6: column inference, dropping, and duplicate targets -/

theorem getSeries_error_of_two {df : Frame} {l : String}
    (h : 2 ≤ (colsWith df l).length) : ∃ e, getSeries df l = Except.error e := by
  unfold getSeries
  cases hc : colsWith df l with
  | nil => rw [hc] at h; simp at h
  | cons c t =>
    cases t with
    | nil => rw [hc] at h; simp at h
    | cons c' t' => exact ⟨_, rfl⟩

theorem hasCol_of_two {df : Frame} {l : String}
    (h : 2 ≤ (colsWith df l).length) : hasCol df l = true := by
  rw [hasCol_iff]
  intro hc
  rw [hc] at h
  simp at h

/-- A duplicated `Date` selection makes `cleanDate` raise. -/
theorem cleanDate_error_of_dup {df : Frame}
    (h : 2 ≤ (colsWith df "Date").length) : ∃ e, cleanDate df = Except.error e := by
  obtain ⟨e, he⟩ := getSeries_error_of_two h
  refine ⟨e, ?_⟩
  unfold cleanDate
  rw [if_pos (hasCol_of_two h), he]
  simp [ebind_error]

/-- A duplicated count selection makes `cleanCount` raise. -/
theorem cleanCount_error_of_dup {df : Frame} {lbl : String}
    (h : 2 ≤ (colsWith df lbl).length) : ∃ e, cleanCount lbl df = Except.error e := by
  obtain ⟨e, he⟩ := getSeries_error_of_two h
  refine ⟨e, ?_⟩
  unfold cleanCount
  rw [if_pos (hasCol_of_two h), he]
  simp [ebind_error]

/-- C6 (amended): the case-insensitive substring rules map a header
containing "date" to `Date`, one containing "walk" (and not "date") to
`Walk-in Customer`, one containing "test" and "drive" (and neither
earlier match) to `Test Drive`; every column matching no rule keeps its
name and is dropped by the selection, which keeps only the target
labels.  When several source columns map to the same target, pandas
keeps them all as duplicate labels and the cleaning step then raises an
error — the later column does NOT silently win. -/
theorem c6_header_inference :
    (∀ c : String,
      (containsSub "date".data (lowerChars c) = true → renameLabel c = "Date") ∧
      (containsSub "walk".data (lowerChars c) = true →
        containsSub "date".data (lowerChars c) = false →
        renameLabel c = "Walk-in Customer") ∧
      (containsSub "test".data (lowerChars c) = true →
        containsSub "drive".data (lowerChars c) = true →
        containsSub "date".data (lowerChars c) = false →
        containsSub "walk".data (lowerChars c) = false →
        renameLabel c = "Test Drive") ∧
      (containsSub "date".data (lowerChars c) = false →
        containsSub "walk".data (lowerChars c) = false →
        (containsSub "test".data (lowerChars c) = false ∨
          containsSub "drive".data (lowerChars c) = false) →
        renameLabel c = c)) ∧
    (∀ df : Frame, ∀ p ∈ selectRequired df, p.1 ∈ requiredCols) ∧
    (∀ (df : Frame) (l : String), l ∈ requiredCols →
      2 ≤ (colsWith (renameCols (stripCols df)) l).length →
      ∃ e, load_data df = Except.error e) := by
  refine ⟨?_, ?_, ?_⟩
  · intro c
    refine ⟨fun h1 => ?_, fun h2 h1 => ?_, fun h3 h4 h1 h2 => ?_, fun h1 h2 h34 => ?_⟩ <;>
      unfold renameLabel <;> simp [h1]
    · simp [h2]
    · simp [h2, h3, h4]
    · rcases h34 with h3 | h4
      · simp [h2, h3]
      · cases h3 : containsSub "test".data (lowerChars c) <;> simp [h2, h3, h4]
  · intro df p hp
    unfold selectRequired at hp
    rw [List.mem_flatMap] at hp
    obtain ⟨l, hl, hpl⟩ := hp
    have := List.of_mem_filter hpl
    have hpe : p.1 = l := beq_iff_eq.mp this
    rw [hpe]
    exact (List.mem_filter.mp hl).1
  · intro df l hl hlen
    have hsel : colsWith (selectRequired (renameCols (stripCols df))) l =
        colsWith (renameCols (stripCols df)) l := by
      rw [selectRequired_colsWith _ _ hl, if_pos (hasCol_of_two hlen)]
    have hlen2 : 2 ≤ (colsWith (selectRequired (renameCols (stripCols df))) l).length := by
      rw [hsel]; exact hlen
    unfold load_data
    simp only []
    fin_cases hl
    · -- duplicated Date: `cleanDate` raises
      obtain ⟨e, he⟩ := cleanDate_error_of_dup hlen2
      exact ⟨e, by rw [he]; rfl⟩
    · -- duplicated Walk-in Customer: its own cleaning raises
      cases h3 : cleanDate (selectRequired (renameCols (stripCols df))) with
      | error e => exact ⟨e, rfl⟩
      | ok df3 =>
        have : 2 ≤ (colsWith df3 "Walk-in Customer").length := by
          rw [cleanDate_ok_count h3]; exact hlen2
        obtain ⟨e, he⟩ := cleanCount_error_of_dup this
        exact ⟨e, by rw [ebind_ok, he]; rfl⟩
    · -- duplicated Test Drive
      cases h3 : cleanDate (selectRequired (renameCols (stripCols df))) with
      | error e => exact ⟨e, rfl⟩
      | ok df3 =>
        cases h4 : cleanCount "Walk-in Customer" df3 with
        | error e => exact ⟨e, by rw [ebind_ok, h4]; rfl⟩
        | ok df4 =>
          have : 2 ≤ (colsWith df4 "Test Drive").length := by
            rw [cleanCount_ok_count h4, cleanDate_ok_count h3]; exact hlen2
          obtain ⟨e, he⟩ := cleanCount_error_of_dup this
          exact ⟨e, by rw [ebind_ok, h4, ebind_ok, he]; rfl⟩

/-- Counterexample input for C6: two source columns that both map to
`Walk-in Customer`. -/
def cex6 : Frame := [("Walk A", [Cell.num 1]), ("Walk B", [Cell.num 2])]

/-- Counterexample for C6 as stated: with two "walk" columns the rename
produces duplicate `Walk-in Customer` labels and `load_data` raises —
the later column does not silently win. -/
theorem c6_header_inference_counterexample :
    labels (renameCols (stripCols cex6)) = ["Walk-in Customer", "Walk-in Customer"] ∧
    load_data cex6 = Except.error "not a unique column: Walk-in Customer" := by
  decide

/-- Witness for the amended C6: the duplicate-target branch applied to
`cex6`. -/
theorem c6_header_inference_witness :
    renameLabel "Walk A" = "Walk-in Customer" ∧
    (∃ e, load_data cex6 = Except.error e) :=
  ⟨(c6_header_inference.1 "Walk A").2.1 (by decide) (by decide),
    c6_header_inference.2.2 cex6 "Walk-in Customer" (by decide) (by decide)⟩

/-! ### Claim C4: date cleaning -/

theorem mapME_error_of_mem {a b : Type} {f : a → Except String b} {l : List a} {x : a}
    (hx : x ∈ l) {e : String} (he : f x = Except.error e) :
    ∃ e', mapME f l = Except.error e' := by
  induction l with
  | nil => simp at hx
  | cons y t ih =>
    cases hfy : f y with
    | error e2 => exact ⟨e2, by simp [mapME, hfy, ebind_error]⟩
    | ok b2 =>
      rcases List.mem_cons.mp hx with h1 | h2
      · rw [h1] at he; rw [he] at hfy; cases hfy
      · obtain ⟨e', he'⟩ := ih h2
        exact ⟨e', by simp [mapME, hfy, he', ebind_ok, ebind_error]⟩

/-- C4 (amended): during row cleaning, a row whose mapped date value is
missing is dropped from every column (never coerced to a default), and
for surviving rows the time-of-day component is discarded, keeping only
the calendar-date part; but a non-missing date value that fails parsing
raises an error instead of being dropped. -/
theorem c4_date_cleaning (df : Frame) (col : List Cell)
    (hs : getSeries df "Date" = Except.ok col) :
    ((∀ c ∈ col, c.isna = false → (toDatetime c).isSome) →
      ∃ out, cleanDate df = Except.ok out ∧
        colsWith out "Date" =
          [(col.filter (fun c => !c.isna)).map
            (fun c => Cell.date (((toDatetime c).getD (⟨0, 0, 0⟩, 0)).1))] ∧
        ((∀ p ∈ df, p.2.length = col.length) →
          ∀ p' ∈ cleanDate df |>.toOption.getD [],
            p'.2.length = (col.filter (fun c => !c.isna)).length)) ∧
    ((∃ c ∈ col, c.isna = false ∧ toDatetime c = none) →
      ∃ e, cleanDate df = Except.error e) := by
  have hcw : colsWith df "Date" = [col] := (getSeries_ok_iff df "Date" col).mp hs
  have hc : hasCol df "Date" = true := by rw [hasCol_iff, hcw]; simp
  have hkept : maskFilter (col.map (fun c => !c.isna)) col =
      col.filter (fun c => !c.isna) := maskFilter_self _ col
  constructor
  · intro hall
    have hmap : mapME (fun c =>
        match toDatetime c with
        | some p => Except.ok (Cell.date p.1)
        | none => Except.error "unparseable date")
        (maskFilter (col.map (fun c => !c.isna)) col) =
        Except.ok ((col.filter (fun c => !c.isna)).map
          (fun c => Cell.date (((toDatetime c).getD (⟨0, 0, 0⟩, 0)).1))) := by
      rw [hkept]
      apply mapME_ok_of_forall
      intro c hcmem
      have hna : c.isna = false := by
        have := List.of_mem_filter hcmem
        simpa using this
      have hsome := hall c (List.mem_of_mem_filter hcmem) hna
      cases hdt : toDatetime c with
      | none => rw [hdt] at hsome; cases hsome
      | some p => simp [hdt]
    have hout : cleanDate df = Except.ok
        (setCol (df.map (fun p => (p.1, maskFilter (col.map (fun c => !c.isna)) p.2)))
          "Date" ((col.filter (fun c => !c.isna)).map
            (fun c => Cell.date (((toDatetime c).getD (⟨0, 0, 0⟩, 0)).1)))) := by
      unfold cleanDate
      rw [if_pos hc, hs]
      simp only [ebind_ok]
      rw [hmap, ebind_ok]
    refine ⟨_, hout, ?_, ?_⟩
    · rw [colsWith_setCol, if_pos rfl, colsWith_mapSnd, hcw]
      simp [List.replicate]
    · intro hrect p' hp'
      rw [hout] at hp'
      simp only [Except.toOption, Option.getD] at hp'
      unfold setCol at hp'
      rw [List.map_map] at hp'
      obtain ⟨p, hpmem, hpe⟩ := List.mem_map.mp hp'
      by_cases hpd : p.1 = "Date"
      · have hb : (p.1 == "Date") = true := by simp [hpd]
        simp only [Function.comp, hb, if_true] at hpe
        rw [← hpe]
        simp
      · have hb : (p.1 == "Date") = false := by simp [hpd]
        simp only [Function.comp, hb, Bool.false_eq_true, if_false] at hpe
        rw [← hpe]
        exact maskFilter_length _ col p.2 (hrect p hpmem)
  · intro ⟨c, hcmem, hna, hdt⟩
    have hcin : c ∈ maskFilter (col.map (fun c => !c.isna)) col := by
      rw [hkept]
      apply List.mem_filter.mpr
      exact ⟨hcmem, by simp [hna]⟩
    have herr : (match toDatetime c with
        | some p => Except.ok (Cell.date p.1)
        | none => (Except.error "unparseable date" : Except String Cell)) =
        Except.error "unparseable date" := by rw [hdt]
    obtain ⟨e', he'⟩ := @mapME_error_of_mem Cell Cell
      (fun c => match toDatetime c with
        | some p => Except.ok (Cell.date p.1)
        | none => Except.error "unparseable date")
      (maskFilter (col.map (fun c => !c.isna)) col) c hcin "unparseable date" herr
    refine ⟨e', ?_⟩
    unfold cleanDate
    rw [if_pos hc, hs]
    simp only [ebind_ok]
    rw [he', ebind_error]

/-- Counterexample input for C4: a non-missing but unparseable date. -/
def cex4 : Frame :=
  [("date", [Cell.text "oops", Cell.na]),
   ("walk", [Cell.num 1, Cell.num 2]),
   ("test drive", [Cell.num 3, Cell.num 4])]

/-- Counterexample for C4 as stated: the cell `"oops"` in the date
column is not missing and fails parsing, and `load_data` raises instead
of dropping the row. -/
theorem c4_date_cleaning_counterexample :
    (Cell.text "oops").isna = false ∧
    toDatetime (Cell.text "oops") = none ∧
    load_data cex4 = Except.error "unparseable date" := by
  decide

/-- Witness for the amended C4: a frame whose date column holds one
missing value and one datetime with a time-of-day component, and one
whose date column holds an unparseable string. -/
theorem c4_date_cleaning_witness :
    ((∃ out, cleanDate [("Date", [Cell.na, Cell.dt ⟨2024, 1, 2⟩ (mkRat 1 2)])] = Except.ok out ∧
        colsWith out "Date" =
          [([Cell.na, Cell.dt ⟨2024, 1, 2⟩ (mkRat 1 2)].filter (fun c => !c.isna)).map
            (fun c => Cell.date (((toDatetime c).getD (⟨0, 0, 0⟩, 0)).1))] ∧
        ((∀ p ∈ [("Date", [Cell.na, Cell.dt ⟨2024, 1, 2⟩ (mkRat 1 2)])],
            p.2.length = [Cell.na, Cell.dt ⟨2024, 1, 2⟩ (mkRat 1 2)].length) →
          ∀ p' ∈ cleanDate [("Date", [Cell.na, Cell.dt ⟨2024, 1, 2⟩ (mkRat 1 2)])] |>.toOption.getD [],
            p'.2.length =
              ([Cell.na, Cell.dt ⟨2024, 1, 2⟩ (mkRat 1 2)].filter (fun c => !c.isna)).length))) ∧
    (∃ e, cleanDate [("Date", [Cell.text "zzz"])] = Except.error e) :=
  ⟨(c4_date_cleaning _ [Cell.na, Cell.dt ⟨2024, 1, 2⟩ (mkRat 1 2)] (by decide)).1
      (by decide),
   (c4_date_cleaning _ [Cell.text "zzz"] (by decide)).2
      ⟨Cell.text "zzz", by decide, by decide, by decide⟩⟩

/-! ### Claim C3: lenient numeric coercion of the count columns -/

theorem cleanCount_ok_ne {lbl : String} {df out : Frame}
    (h : cleanCount lbl df = Except.ok out) (l : String) (hne : l ≠ lbl) :
    colsWith out l = colsWith df l := by
  unfold cleanCount at h
  split at h
  · cases hs : getSeries df lbl with
    | error e => rw [hs] at h; simp [ebind_error] at h
    | ok col =>
      rw [hs] at h
      simp only [ebind_ok, Except.ok.injEq] at h
      rw [← h, colsWith_setCol, if_neg (fun he => hne he.symm)]
  · simp only [Except.ok.injEq] at h
    rw [← h]

theorem addConversion_ok_ne {df out : Frame}
    (h : addConversion df = Except.ok out) (l : String)
    (hne : l ≠ "Conversion Rate") : colsWith out l = colsWith df l := by
  unfold addConversion at h
  split at h
  · cases hw : getSeries df "Walk-in Customer" with
    | error e => rw [hw] at h; simp [ebind_error] at h
    | ok w =>
      rw [hw] at h
      simp only [ebind_ok] at h
      cases ht : getSeries df "Test Drive" with
      | error e => rw [ht] at h; simp [ebind_error] at h
      | ok t =>
        rw [ht] at h
        simp only [ebind_ok] at h
        cases hwi : mapME cellNum w with
        | error e => rw [hwi] at h; simp [ebind_error] at h
        | ok wi =>
          rw [hwi] at h
          simp only [ebind_ok] at h
          cases hti : mapME cellNum t with
          | error e => rw [hti] at h; simp [ebind_error] at h
          | ok ti =>
            rw [hti] at h
            simp only [ebind_ok, Except.ok.injEq] at h
            rw [← h, colsWith_append]
            have : colsWith [("Conversion Rate",
                (List.zip wi ti).map (fun p => Cell.num (convRate p.1 p.2)))] l = [] := by
              unfold colsWith
              have : ("Conversion Rate" == l) = false := by
                have : ¬ "Conversion Rate" = l := fun he => hne he.symm
                simp [this]
              simp [List.filter, this]
            rw [this, List.append_nil]
  · simp only [Except.ok.injEq] at h
    rw [← h]

/-- C3: for a count column (`Walk-in Customer` or `Test Drive`) of the
cleaned table, every cell that fails numeric parsing is replaced by `0`
(the row is neither dropped nor an error raised), every parsed value is
cast to integer (truncated), and the column keeps one output cell per
surviving row. -/
theorem c3_count_coercion (df out mid : Frame) (lbl : String) (col : List Cell)
    (hlbl : lbl = "Walk-in Customer" ∨ lbl = "Test Drive")
    (h : load_data df = Except.ok out)
    (hmid : cleanDate (selectRequired (renameCols (stripCols df))) = Except.ok mid)
    (hcol : colsWith mid lbl = [col]) :
    colsWith out lbl = [col.map (fun c => Cell.int (truncQ ((toNumericQ c).getD 0)))] ∧
    (col.map (fun c => Cell.int (truncQ ((toNumericQ c).getD 0)))).length = col.length ∧
    ∀ i c, col.get? i = some c →
      (toNumericQ c = none →
        (col.map (fun c => Cell.int (truncQ ((toNumericQ c).getD 0)))).get? i =
          some (Cell.int 0)) ∧
      (∀ q, toNumericQ c = some q →
        (col.map (fun c => Cell.int (truncQ ((toNumericQ c).getD 0)))).get? i =
          some (Cell.int (truncQ q))) := by
  unfold load_data at h
  simp only [] at h
  rw [hmid] at h
  simp only [ebind_ok] at h
  cases h4 : cleanCount "Walk-in Customer" mid with
  | error e => rw [h4] at h; simp [ebind_error] at h
  | ok df4 =>
    rw [h4] at h
    simp only [ebind_ok] at h
    cases h5 : cleanCount "Test Drive" df4 with
    | error e => rw [h5] at h; simp [ebind_error] at h
    | ok df5 =>
      rw [h5] at h
      simp only [ebind_ok] at h
      have hmain : colsWith out lbl =
          [col.map (fun c => Cell.int (truncQ ((toNumericQ c).getD 0)))] := by
        rcases hlbl with hw | ht
        · subst hw
          have hspec := cleanCount_ok_spec ((getSeries_ok_iff _ _ _).mpr hcol) h4
          have h5ne := cleanCount_ok_ne h5 "Walk-in Customer" (by decide)
          have hconv := addConversion_ok_ne h "Walk-in Customer" (by decide)
          rw [hconv, h5ne, hspec.1]
        · subst ht
          have h4ne := cleanCount_ok_ne h4 "Test Drive" (by decide)
          have hcol4 : colsWith df4 "Test Drive" = [col] := by rw [h4ne, hcol]
          have hspec := cleanCount_ok_spec ((getSeries_ok_iff _ _ _).mpr hcol4) h5
          have hconv := addConversion_ok_ne h "Test Drive" (by decide)
          rw [hconv, hspec.1]
      refine ⟨hmain, by simp, ?_⟩
      intro i c hc
      constructor
      · intro hnone
        rw [List.get?_map, hc]
        simp [hnone]
        decide
      · intro q hq
        rw [List.get?_map, hc]
        simp [hq]

/-- Witness for C3: a walk-in column with an unparseable string, a
fractional number, and a missing value. -/
theorem c3_count_coercion_witness :
    colsWith [("Walk-in Customer", [Cell.int 0, Cell.int 2, Cell.int 0])] "Walk-in Customer" =
      [[Cell.text "bad", Cell.num (mkRat 5 2), Cell.na].map
        (fun c => Cell.int (truncQ ((toNumericQ c).getD 0)))] ∧
    ([Cell.text "bad", Cell.num (mkRat 5 2), Cell.na].map
        (fun c => Cell.int (truncQ ((toNumericQ c).getD 0)))).length =
      [Cell.text "bad", Cell.num (mkRat 5 2), Cell.na].length ∧
    ∀ i c, [Cell.text "bad", Cell.num (mkRat 5 2), Cell.na].get? i = some c →
      (toNumericQ c = none →
        ([Cell.text "bad", Cell.num (mkRat 5 2), Cell.na].map
          (fun c => Cell.int (truncQ ((toNumericQ c).getD 0)))).get? i =
            some (Cell.int 0)) ∧
      (∀ q, toNumericQ c = some q →
        ([Cell.text "bad", Cell.num (mkRat 5 2), Cell.na].map
          (fun c => Cell.int (truncQ ((toNumericQ c).getD 0)))).get? i =
            some (Cell.int (truncQ q))) :=
  c3_count_coercion
    [("Walk-ins", [Cell.text "bad", Cell.num (mkRat 5 2), Cell.na])]
    [("Walk-in Customer", [Cell.int 0, Cell.int 2, Cell.int 0])]
    [("Walk-in Customer", [Cell.text "bad", Cell.num (mkRat 5 2), Cell.na])]
    "Walk-in Customer"
    [Cell.text "bad", Cell.num (mkRat 5 2), Cell.na]
    (Or.inl rfl) (by decide) (by decide) (by decide)

/-! ### Claim C1: the conversion-rate formula -/

theorem exists_of_colsWith_ne_nil {df : Frame} {l : String}
    (h : colsWith df l ≠ []) : ∃ p ∈ df, p.1 = l := by
  unfold colsWith at h
  cases hf : df.filter (fun p => p.1 == l) with
  | nil => rw [hf] at h; simp at h
  | cons p t =>
    have hp : p ∈ df.filter (fun q => q.1 == l) := by
      rw [hf]; exact List.mem_cons_self p t
    have hb := List.of_mem_filter hp
    exact ⟨p, List.mem_of_mem_filter hp, beq_iff_eq.mp hb⟩

theorem mem_selectRequired_label (df : Frame) (p : String × List Cell)
    (hp : p ∈ selectRequired df) : p.1 ∈ requiredCols := by
  unfold selectRequired at hp
  rw [List.mem_flatMap] at hp
  obtain ⟨l, hl, hpl⟩ := hp
  have hb := List.of_mem_filter hpl
  have hpe : p.1 = l := beq_iff_eq.mp hb
  rw [hpe]
  exact (List.mem_filter.mp hl).1

/-- C1: when both count columns are present in the cleaned table, the
derived `Conversion Rate` column holds, for every row, exactly
`(test_drives / walk_ins) * 100` when `walk_ins > 0` and `0` when
`walk_ins = 0` (regardless of `test_drives`); the value is a total
rational — never an error or NaN. -/
theorem c1_conversion_rate (df out : Frame) (ws ts : List Int)
    (h : load_data df = Except.ok out)
    (hw : colAs out "Walk-in Customer" asInt = some ws)
    (ht : colAs out "Test Drive" asInt = some ts) :
    colsWith out "Conversion Rate" =
      [(List.zip ws ts).map (fun p =>
        Cell.num (if 0 < (p.1 : ℚ) then ((p.2 : ℚ) / (p.1 : ℚ)) * 100 else 0))] ∧
    ∀ w t : Int,
      (0 < w →
        (if 0 < (w : ℚ) then ((t : ℚ) / (w : ℚ)) * 100 else 0) = (t : ℚ) / (w : ℚ) * 100) ∧
      (w = 0 → (if 0 < (w : ℚ) then ((t : ℚ) / (w : ℚ)) * 100 else 0) = 0) := by
  constructor
  · -- destructure the pipeline down to `addConversion`
    unfold load_data at h
    simp only [] at h
    cases h3 : cleanDate (selectRequired (renameCols (stripCols df))) with
    | error e => rw [h3] at h; simp [ebind_error] at h
    | ok df3 =>
      rw [h3] at h
      simp only [ebind_ok] at h
      cases h4 : cleanCount "Walk-in Customer" df3 with
      | error e => rw [h4] at h; simp [ebind_error] at h
      | ok df4 =>
        rw [h4] at h
        simp only [ebind_ok] at h
        cases h5 : cleanCount "Test Drive" df4 with
        | error e => rw [h5] at h; simp [ebind_error] at h
        | ok df5 =>
          rw [h5] at h
          simp only [ebind_ok] at h
          -- the pre-conversion frame has no `Conversion Rate` column
          have hcr5 : colsWith df5 "Conversion Rate" = [] := by
            have hlen : (colsWith df5 "Conversion Rate").length = 0 := by
              rw [colsWith_length_count, cleanCount_ok_labels h5,
                cleanCount_ok_labels h4, cleanDate_ok_labels h3,
                List.count_eq_zero]
              intro hmem
              obtain ⟨p, hpmem, hpe⟩ := List.mem_map.mp hmem
              have := mem_selectRequired_label _ p hpmem
              rw [hpe] at this
              revert this
              decide
            exact List.length_eq_zero.mp hlen
          -- `addConversion` must have taken the positive branch
          unfold addConversion at h
          split at h
          case isFalse hcond =>
            simp only [Except.ok.injEq] at h
            exfalso
            rw [← h] at hw ht
            unfold colAs at hw ht
            apply hcond
            cases hww : colsWith df5 "Walk-in Customer" with
            | nil => rw [hww] at hw; simp at hw
            | cons cw tw =>
              cases htt : colsWith df5 "Test Drive" with
              | nil => rw [htt] at ht; cases tw <;> simp [htt] at ht
              | cons ct tt =>
                have h1 : hasCol df5 "Walk-in Customer" = true := by
                  rw [hasCol_iff, hww]; simp
                have h2 : hasCol df5 "Test Drive" = true := by
                  rw [hasCol_iff, htt]; simp
                simp [h1, h2]
          case isTrue hcond =>
            cases hws : getSeries df5 "Walk-in Customer" with
            | error e => rw [hws] at h; simp [ebind_error] at h
            | ok w =>
              rw [hws] at h
              simp only [ebind_ok] at h
              cases hts : getSeries df5 "Test Drive" with
              | error e => rw [hts] at h; simp [ebind_error] at h
              | ok t =>
                rw [hts] at h
                simp only [ebind_ok] at h
                cases hwi : mapME cellNum w with
                | error e => rw [hwi] at h; simp [ebind_error] at h
                | ok wi =>
                  rw [hwi] at h
                  simp only [ebind_ok] at h
                  cases hti : mapME cellNum t with
                  | error e => rw [hti] at h; simp [ebind_error] at h
                  | ok ti =>
                    rw [hti] at h
                    simp only [ebind_ok, Except.ok.injEq] at h
                    -- identify the walk and test columns from `hw`, `ht`
                    have hbW : ("Conversion Rate" == "Walk-in Customer") = false := by decide
                    have hbT : ("Conversion Rate" == "Test Drive") = false := by decide
                    have hcwW : colsWith out "Walk-in Customer" = [w] := by
                      rw [← h, colsWith_append, (getSeries_ok_iff _ _ _).mp hws]
                      have : colsWith [("Conversion Rate",
                          (List.zip wi ti).map (fun p => Cell.num (convRate p.1 p.2)))]
                          "Walk-in Customer" = [] := by
                        unfold colsWith
                        simp [List.filter, hbW]
                      rw [this, List.append_nil]
                    have hcwT : colsWith out "Test Drive" = [t] := by
                      rw [← h, colsWith_append, (getSeries_ok_iff _ _ _).mp hts]
                      have : colsWith [("Conversion Rate",
                          (List.zip wi ti).map (fun p => Cell.num (convRate p.1 p.2)))]
                          "Test Drive" = [] := by
                        unfold colsWith
                        simp [List.filter, hbT]
                      rw [this, List.append_nil]
                    unfold colAs at hw ht
                    rw [hcwW] at hw
                    rw [hcwT] at ht
                    simp only [] at hw ht
                    have hwcells : w = ws.map Cell.int := mapMO_asInt_inv w ws hw
                    have htcells : t = ts.map Cell.int := mapMO_asInt_inv t ts ht
                    -- hence the numeric views are the integer casts
                    have hwi2 : wi = ws.map (fun n : Int => (n : ℚ)) := by
                      have : mapME cellNum w = Except.ok ((ws.map Cell.int).map
                          (fun c => ((asInt c).getD 0 : ℚ))) := by
                        rw [hwcells]
                        apply mapME_ok_of_forall
                        intro x hx
                        obtain ⟨n, _, hn⟩ := List.mem_map.mp hx
                        rw [← hn]
                        simp [cellNum, asInt]
                      rw [hwi] at this
                      simp only [Except.ok.injEq] at this
                      rw [this, List.map_map]
                      rfl
                    have hti2 : ti = ts.map (fun n : Int => (n : ℚ)) := by
                      have : mapME cellNum t = Except.ok ((ts.map Cell.int).map
                          (fun c => ((asInt c).getD 0 : ℚ))) := by
                        rw [htcells]
                        apply mapME_ok_of_forall
                        intro x hx
                        obtain ⟨n, _, hn⟩ := List.mem_map.mp hx
                        rw [← hn]
                        simp [cellNum, asInt]
                      rw [hti] at this
                      simp only [Except.ok.injEq] at this
                      rw [this, List.map_map]
                      rfl
                    rw [← h, colsWith_append, hcr5, List.nil_append]
                    have : colsWith [("Conversion Rate",
                        (List.zip wi ti).map (fun p => Cell.num (convRate p.1 p.2)))]
                        "Conversion Rate" =
                        [(List.zip wi ti).map (fun p => Cell.num (convRate p.1 p.2))] := by
                      unfold colsWith
                      simp [List.filter]
                    rw [this, hwi2, hti2, List.zip_map, List.map_map]
                    congr 1
  · intro w t
    constructor
    · intro hpos
      rw [if_pos (by exact_mod_cast hpos)]
    · intro hz
      rw [hz]
      simp

/-- Witness for C1: one row with four walk-ins and one test drive. -/
theorem c1_conversion_rate_witness :
    colsWith [("Walk-in Customer", [Cell.int 4]), ("Test Drive", [Cell.int 1]),
        ("Conversion Rate", [Cell.num (convRate ((4 : Int) : ℚ) ((1 : Int) : ℚ))])]
        "Conversion Rate" =
      [(List.zip [(4 : Int)] [(1 : Int)]).map (fun p =>
        Cell.num (if 0 < (p.1 : ℚ) then ((p.2 : ℚ) / (p.1 : ℚ)) * 100 else 0))] ∧
    ∀ w t : Int,
      (0 < w →
        (if 0 < (w : ℚ) then ((t : ℚ) / (w : ℚ)) * 100 else 0) = (t : ℚ) / (w : ℚ) * 100) ∧
      (w = 0 → (if 0 < (w : ℚ) then ((t : ℚ) / (w : ℚ)) * 100 else 0) = 0) :=
  c1_conversion_rate [("walk", [Cell.num 4]), ("test drive", [Cell.num 1])]
    [("Walk-in Customer", [Cell.int 4]), ("Test Drive", [Cell.int 1]),
      ("Conversion Rate", [Cell.num (convRate ((4 : Int) : ℚ) ((1 : Int) : ℚ))])]
    [4] [1] (by rfl) (by decide) (by decide)

/-! ### Claim C2: conversion-band distribution -/

theorem findSomeIf {α β : Type} (P : α → Prop) [DecidablePred P] (g : α → β)
    (a : α) (t : List α) :
    List.findSome? (fun x => if P x then some (g x) else none) (a :: t) =
      if P a then some (g a)
      else List.findSome? (fun x => if P x then some (g x) else none) t := by
  by_cases h : P a <;> simp [List.findSome?_cons, h]

/-- `pd.cut` over the concrete bins, written as a cascade of interval
tests. -/
theorem convBand_ifs (q : ℚ) :
    convBand q =
      (if mkRat (-1) 10 < q ∧ q ≤ 0 then some "0%"
       else if 0 < q ∧ q ≤ 10 then some "0–10%"
       else if 10 < q ∧ q ≤ 20 then some "10–20%"
       else if 20 < q ∧ q ≤ 30 then some "20–30%"
       else if 30 < q ∧ q ≤ 40 then some "30–40%"
       else if 40 < q ∧ q ≤ 100 then some "40%+"
       else none) := by
  unfold convBand bins bandLabels
  simp only [List.tail_cons, List.zip_cons_cons, List.zip_nil_right, List.zip_nil_left]
  rw [findSomeIf, findSomeIf, findSomeIf, findSomeIf, findSomeIf, findSomeIf]
  rfl

/-- C2 (amended): the band map sends exactly `0` (and any value in
`(-0.1, 0]`) to "0%", `(0,10]` to "0–10%", `(10,20]` to "10–20%",
`(20,30]` to "20–30%", `(30,40]` to "30–40%", and `(40,100]` to "40%+";
a conversion rate above `100` falls outside every bin and is assigned no
band at all (it is omitted from the day counts).  The output lists one
count per band in the fixed label order. -/
theorem c2_conversion_bands :
    (∀ q : ℚ,
      (q = 0 → convBand q = some "0%") ∧
      (0 < q → q ≤ 10 → convBand q = some "0–10%") ∧
      (10 < q → q ≤ 20 → convBand q = some "10–20%") ∧
      (20 < q → q ≤ 30 → convBand q = some "20–30%") ∧
      (30 < q → q ≤ 40 → convBand q = some "30–40%") ∧
      (40 < q → q ≤ 100 → convBand q = some "40%+") ∧
      (100 < q → convBand q = none)) ∧
    (∀ rates : List ℚ,
      (bandCounts rates).map (fun p => p.1) = bandLabels ∧
      ∀ p ∈ bandCounts rates,
        p.2 = (rates.filter (fun q => convBand q == some p.1)).length) := by
  constructor
  · intro q
    have hq := convBand_ifs q
    refine ⟨?_, ?_, ?_, ?_, ?_, ?_, ?_⟩
    · intro h
      subst h
      rw [hq]
      norm_num [Rat.mkRat_eq_div]
    · intro h1 h2
      rw [hq, if_neg (by rintro ⟨h3, h4⟩; linarith), if_pos ⟨h1, h2⟩]
    · intro h1 h2
      rw [hq, if_neg (by rintro ⟨h3, h4⟩; linarith),
        if_neg (by rintro ⟨h3, h4⟩; linarith), if_pos ⟨h1, h2⟩]
    · intro h1 h2
      rw [hq, if_neg (by rintro ⟨h3, h4⟩; linarith),
        if_neg (by rintro ⟨h3, h4⟩; linarith),
        if_neg (by rintro ⟨h3, h4⟩; linarith), if_pos ⟨h1, h2⟩]
    · intro h1 h2
      rw [hq, if_neg (by rintro ⟨h3, h4⟩; linarith),
        if_neg (by rintro ⟨h3, h4⟩; linarith),
        if_neg (by rintro ⟨h3, h4⟩; linarith),
        if_neg (by rintro ⟨h3, h4⟩; linarith), if_pos ⟨h1, h2⟩]
    · intro h1 h2
      rw [hq, if_neg (by rintro ⟨h3, h4⟩; linarith),
        if_neg (by rintro ⟨h3, h4⟩; linarith),
        if_neg (by rintro ⟨h3, h4⟩; linarith),
        if_neg (by rintro ⟨h3, h4⟩; linarith),
        if_neg (by rintro ⟨h3, h4⟩; linarith), if_pos ⟨h1, h2⟩]
    · intro h1
      rw [hq, if_neg (by rintro ⟨h3, h4⟩; linarith),
        if_neg (by rintro ⟨h3, h4⟩; linarith),
        if_neg (by rintro ⟨h3, h4⟩; linarith),
        if_neg (by rintro ⟨h3, h4⟩; linarith),
        if_neg (by rintro ⟨h3, h4⟩; linarith),
        if_neg (by rintro ⟨h3, h4⟩; linarith)]
  · intro rates
    constructor
    · rfl
    · intro p hp
      unfold bandCounts at hp
      obtain ⟨l, _, hl⟩ := List.mem_map.mp hp
      rw [← hl]

/-- Counterexample input for C2: one day with one walk-in and two test
drives, whose conversion rate is 200. -/
def cex2 : Frame := [("walk", [Cell.num 1]), ("test drive", [Cell.num 2])]

/-- Counterexample for C2 as stated: the pipeline produces the
conversion rate 200, which `pd.cut` with bins ending at 100 places in no
band, so this day is counted in no bucket — not in "40%+". -/
theorem c2_conversion_bands_counterexample :
    load_data cex2 = Except.ok
      [("Walk-in Customer", [Cell.int 1]), ("Test Drive", [Cell.int 2]),
       ("Conversion Rate", [Cell.num (convRate ((1 : Int) : ℚ) ((2 : Int) : ℚ))])] ∧
    convRate ((1 : Int) : ℚ) ((2 : Int) : ℚ) = 200 ∧
    convBand 200 = none ∧
    bandCounts [convRate ((1 : Int) : ℚ) ((2 : Int) : ℚ)] =
      [("0%", 0), ("0–10%", 0), ("10–20%", 0), ("20–30%", 0), ("30–40%", 0),
       ("40%+", 0)] := by
  have h200 : convRate ((1 : Int) : ℚ) ((2 : Int) : ℚ) = 200 := by
    norm_num [convRate]
  have hnone : convBand 200 = none := by
    rw [convBand_ifs]
    norm_num [Rat.mkRat_eq_div]
  refine ⟨by rfl, h200, hnone, ?_⟩
  unfold bandCounts bandLabels
  rw [h200]
  simp [hnone, List.filter]

/-- Witness for the amended C2 at the rate 55 (band "40%+"). -/
theorem c2_conversion_bands_witness :
    convBand 55 = some "40%+" ∧
    (bandCounts [(55 : ℚ)]).map (fun p => p.1) = bandLabels :=
  ⟨((c2_conversion_bands.1 55).2.2.2.2.2.1 (by norm_num) (by norm_num)),
   (c2_conversion_bands.2 [(55 : ℚ)]).1⟩

/-! ### Claim C7: weekday aggregation -/

theorem weekdayName_mem (d : Date) : weekdayName d ∈ weekdayOrder := by
  unfold weekdayName
  have h7 : (0 : Int) < 7 := by decide
  have hnn : 0 ≤ (daysFromCivil d + 3) % 7 := Int.emod_nonneg _ (by decide)
  have hlt : (daysFromCivil d + 3) % 7 < 7 := Int.emod_lt_of_pos _ h7
  have htn : ((daysFromCivil d + 3) % 7).toNat < 7 := by omega
  have hall : ∀ i < 7, dayNames.getD i "" ∈ weekdayOrder := by decide
  exact hall _ htn

theorem weekdayAgg_names (rows : List Row) :
    (weekdayAgg rows).map (fun a => a.weekday) =
      weekdayOrder.filter
        (fun w => !(rows.filter (fun r => weekdayName r.date == w)).isEmpty) := by
  unfold weekdayAgg
  generalize weekdayOrder = L
  induction L with
  | nil => rfl
  | cons w t ih =>
    rw [List.filterMap_cons, List.filter_cons]
    cases he : (rows.filter (fun r => weekdayName r.date == w)).isEmpty
    · simp only [he, Bool.false_eq_true, if_false, Bool.not_false, if_true,
        List.map_cons, ih]
    · simp only [he, if_true, Bool.not_true, Bool.false_eq_true, if_false, ih]

/-- C7: the weekday aggregation groups the cleaned rows by weekday name,
sums both counts and averages the conversion rate per weekday, lists its
output in the fixed Monday→Sunday order, and contains exactly the
weekdays that occur in the input — a weekday with no rows is omitted,
not shown as zero. -/
theorem c7_weekday_aggregation (rows : List Row) :
    List.Sublist ((weekdayAgg rows).map (fun a => a.weekday)) weekdayOrder ∧
    (∀ w, w ∈ (weekdayAgg rows).map (fun a => a.weekday) ↔
      ∃ r ∈ rows, weekdayName r.date = w) ∧
    ∀ a ∈ weekdayAgg rows,
      rows.filter (fun r => weekdayName r.date == a.weekday) ≠ [] ∧
      a.walkSum = ((rows.filter (fun r => weekdayName r.date == a.weekday)).map
        (fun r => r.walkIns)).sum ∧
      a.tdSum = ((rows.filter (fun r => weekdayName r.date == a.weekday)).map
        (fun r => r.testDrives)).sum ∧
      a.avgConv = ((rows.filter (fun r => weekdayName r.date == a.weekday)).map
        (fun r => r.conv)).sum /
        ((rows.filter (fun r => weekdayName r.date == a.weekday)).length : ℚ) := by
  refine ⟨?_, ?_, ?_⟩
  · rw [weekdayAgg_names]
    exact List.filter_sublist _
  · intro w
    rw [weekdayAgg_names, List.mem_filter]
    constructor
    · intro ⟨_, hne⟩
      cases hf : rows.filter (fun r => weekdayName r.date == w) with
      | nil => rw [hf] at hne; simp at hne
      | cons r t =>
        have hr : r ∈ rows.filter (fun r => weekdayName r.date == w) := by
          rw [hf]; exact List.mem_cons_self r t
        have hb := List.of_mem_filter hr
        exact ⟨r, List.mem_of_mem_filter hr, beq_iff_eq.mp hb⟩
    · intro ⟨r, hr, hw⟩
      constructor
      · rw [← hw]; exact weekdayName_mem r.date
      · have : r ∈ rows.filter (fun x => weekdayName x.date == w) :=
          List.mem_filter.mpr ⟨hr, by simp [hw]⟩
        cases hf : rows.filter (fun x => weekdayName x.date == w) with
        | nil => rw [hf] at this; simp at this
        | cons y t => simp [hf]
  · intro a ha
    unfold weekdayAgg at ha
    obtain ⟨w, _, hfw⟩ := List.mem_filterMap.mp ha
    by_cases he : (rows.filter (fun r => weekdayName r.date == w)).isEmpty
    · simp only [he, if_true] at hfw
      cases hfw
    · simp only [he, Bool.false_eq_true, if_false, Option.some.injEq] at hfw
      rw [← hfw]
      refine ⟨?_, rfl, rfl, rfl⟩
      cases hf : rows.filter (fun r => weekdayName r.date == w) with
      | nil => rw [hf] at he; simp at he
      | cons y t => simp

/-- Witness for C7 on two concrete rows (a Monday and a Sunday). -/
theorem c7_weekday_aggregation_witness :
    List.Sublist ((weekdayAgg [⟨⟨2024, 1, 1⟩, 5, 2, 0⟩, ⟨⟨2024, 1, 7⟩, 3, 1, 0⟩]).map
      (fun a => a.weekday)) weekdayOrder ∧
    "Monday" ∈ (weekdayAgg [⟨⟨2024, 1, 1⟩, 5, 2, 0⟩, ⟨⟨2024, 1, 7⟩, 3, 1, 0⟩]).map
      (fun a => a.weekday) ∧
    "Tuesday" ∉ (weekdayAgg [⟨⟨2024, 1, 1⟩, 5, 2, 0⟩, ⟨⟨2024, 1, 7⟩, 3, 1, 0⟩]).map
      (fun a => a.weekday) :=
  ⟨(c7_weekday_aggregation _).1,
   ((c7_weekday_aggregation _).2.1 "Monday").mpr
     ⟨⟨⟨2024, 1, 1⟩, 5, 2, 0⟩, by decide, by decide⟩,
   fun hmem => by
     obtain ⟨r, hr, hwn⟩ := ((c7_weekday_aggregation _).2.1 "Tuesday").mp hmem
     rcases List.mem_cons.mp hr with h1 | h2
     · rw [h1] at hwn
       revert hwn; decide
     · rcases List.mem_cons.mp h2 with h3 | h4
       · rw [h3] at hwn
         revert hwn; decide
       · simp at h4⟩

/-! ### Claim C9: cumulative series -/

theorem scanl_add_chain : ∀ (l : List Int) (a : Int), (∀ x ∈ l, 0 ≤ x) →
    List.Chain' (· ≤ ·) (List.scanl (· + ·) a l) := by
  intro l
  induction l with
  | nil => intro a _; simp [List.scanl]
  | cons x xs ih =>
    intro a h
    rw [List.scanl_cons]
    have htail := ih (a + x) (fun y hy => h y (List.mem_cons_of_mem x hy))
    have hx : 0 ≤ x := h x (List.mem_cons_self x xs)
    cases xs with
    | nil =>
      simp [List.scanl]
      linarith
    | cons y ys =>
      rw [List.scanl_cons] at htail ⊢
      exact List.chain'_cons.mpr ⟨by linarith, htail⟩

theorem cumsum_chain (l : List Int) (h : ∀ x ∈ l, 0 ≤ x) :
    List.Chain' (· ≤ ·) (cumsum l) :=
  List.Chain'.tail (scanl_add_chain l 0 h)

/-- C9 (amended): the cumulative series is built by sorting the rows
ascending by date and taking independent running sums of the two count
columns; the two series are monotonically non-decreasing whenever the
counts are non-negative (the pipeline itself does not rule out negative
counts, and a negative count makes the series decrease). -/
theorem c9_cumulative (rows : List Row) :
    List.Sorted (fun a b => dateKey a.date ≤ dateKey b.date) (sortByDate rows) ∧
    (cumulative rows).1 = cumsum ((sortByDate rows).map (fun r => r.walkIns)) ∧
    (cumulative rows).2 = cumsum ((sortByDate rows).map (fun r => r.testDrives)) ∧
    ((∀ r ∈ rows, 0 ≤ r.walkIns) → List.Chain' (· ≤ ·) (cumulative rows).1) ∧
    ((∀ r ∈ rows, 0 ≤ r.testDrives) → List.Chain' (· ≤ ·) (cumulative rows).2) := by
  haveI : IsTotal Row (fun a b => dateKey a.date ≤ dateKey b.date) :=
    ⟨fun a b => le_total _ _⟩
  haveI : IsTrans Row (fun a b => dateKey a.date ≤ dateKey b.date) :=
    ⟨fun a b c hab hbc => le_trans hab hbc⟩
  have hperm : ∀ r ∈ sortByDate rows, r ∈ rows := by
    intro r hr
    exact (List.perm_insertionSort _ rows).mem_iff.mp hr
  refine ⟨List.sorted_insertionSort _ rows, rfl, rfl, ?_, ?_⟩
  · intro hnn
    apply cumsum_chain
    intro x hx
    obtain ⟨r, hr, he⟩ := List.mem_map.mp hx
    rw [← he]
    exact hnn r (hperm r hr)
  · intro hnn
    apply cumsum_chain
    intro x hx
    obtain ⟨r, hr, he⟩ := List.mem_map.mp hx
    rw [← he]
    exact hnn r (hperm r hr)

/-- Counterexample input for C9: a cleaned table (reachable through
`load_data`) with a negative walk-in count. -/
def cex9 : Frame :=
  [("date", [Cell.dt ⟨2024, 1, 1⟩ 0, Cell.dt ⟨2024, 1, 2⟩ 0]),
   ("walk", [Cell.num 5, Cell.num (-3)]),
   ("test drive", [Cell.num 0, Cell.num 0])]

/-- Counterexample for C9 as stated: the pipeline accepts a negative
count, and the resulting cumulative walk-in series `[5, 2]` is not
monotonically non-decreasing. -/
theorem c9_cumulative_counterexample :
    ((load_data cex9).toOption.bind rowsOf).map (fun rows => (cumulative rows).1) =
      some [5, 2] ∧
    ¬ List.Chain' (· ≤ ·) [(5 : Int), 2] := by
  constructor
  · decide
  · intro h
    have := List.chain'_cons.mp h
    omega

/-- Witness for the amended C9 on two concrete non-negative rows. -/
theorem c9_cumulative_witness :
    List.Chain' (· ≤ ·)
      (cumulative [⟨⟨2024, 1, 2⟩, 3, 1, 0⟩, ⟨⟨2024, 1, 1⟩, 4, 2, 0⟩]).1 ∧
    List.Chain' (· ≤ ·)
      (cumulative [⟨⟨2024, 1, 2⟩, 3, 1, 0⟩, ⟨⟨2024, 1, 1⟩, 4, 2, 0⟩]).2 :=
  ⟨(c9_cumulative _).2.2.2.1 (by decide), (c9_cumulative _).2.2.2.2 (by decide)⟩

/-! ### Claim C8: csv round trip — decimal and date serialization -/

theorem digitVal_digitChr : ∀ m < 10, digitVal (digitChr m) = some m := by decide

theorem digitChr_ne_dot : ∀ m < 10, digitChr m ≠ '.' := by decide

theorem digitChr_ne_minus : ∀ m < 10, digitChr m ≠ '-' := by decide

theorem digitChr_ne_plus : ∀ m < 10, digitChr m ≠ '+' := by decide

theorem parseNatAux_append (l1 : List Char) : ∀ (l2 : List Char) (acc v : Nat),
    parseNatAux l1 acc = some v →
    parseNatAux (l1 ++ l2) acc = parseNatAux l2 v := by
  induction l1 with
  | nil =>
    intro l2 acc v h
    simp only [parseNatAux, Option.some.injEq] at h
    rw [List.nil_append, h]
  | cons c t ih =>
    intro l2 acc v h
    rw [List.cons_append]
    cases hd : digitVal c with
    | none =>
      exfalso
      unfold parseNatAux at h
      rw [hd] at h
      exact Option.noConfusion h
    | some d =>
      have h' : parseNatAux t (acc * 10 + d) = some v := by
        have heq : parseNatAux (c :: t) acc = parseNatAux t (acc * 10 + d) := by
          simp only [parseNatAux, hd]
        rw [← heq]
        exact h
      have heq2 : parseNatAux (c :: (t ++ l2)) acc =
          parseNatAux (t ++ l2) (acc * 10 + d) := by
        simp only [parseNatAux, hd]
      rw [heq2]
      exact ih l2 (acc * 10 + d) v h' 

theorem natDigitsAux_ne_nil (fuel n : Nat) : natDigitsAux (fuel + 1) n ≠ [] := by
  unfold natDigitsAux
  split
  · exact List.cons_ne_nil _ _
  · exact List.append_ne_nil_of_right_ne_nil _ (List.cons_ne_nil _ _)

theorem natDigits_ne_nil (n : Nat) : natDigits n ≠ [] := natDigitsAux_ne_nil n n

theorem natDigitsAux_parse : ∀ (fuel n acc : Nat), n < 10 ^ fuel →
    parseNatAux (natDigitsAux fuel n) acc =
      some (acc * 10 ^ (natDigitsAux fuel n).length + n) := by
  intro fuel
  induction fuel with
  | zero =>
    intro n acc h
    simp only [pow_zero, Nat.lt_one_iff] at h
    subst h
    simp [natDigitsAux, parseNatAux]
  | succ f ih =>
    intro n acc h
    by_cases hn : n < 10
    · simp only [natDigitsAux, hn, if_true]
      unfold parseNatAux
      rw [digitVal_digitChr n hn]
      unfold parseNatAux
      simp
    · simp only [natDigitsAux, hn, if_false]
      have hdiv : n / 10 < 10 ^ f := by
        rw [pow_succ] at h
        omega
      have h1 := ih (n / 10) acc hdiv
      rw [parseNatAux_append _ _ _ _ h1]
      unfold parseNatAux
      rw [digitVal_digitChr (n % 10) (Nat.mod_lt _ (by norm_num))]
      unfold parseNatAux
      rw [List.length_append, List.length_cons, List.length_nil]
      congr 1
      have hmod := Nat.div_add_mod n 10
      rw [pow_succ, ← mul_assoc]
      generalize acc * 10 ^ (natDigitsAux f (n / 10)).length = A
      omega

theorem parse_natDigits (n : Nat) : parseNatChars (natDigits n) = some n := by
  unfold parseNatChars
  rw [if_neg (by simpa using natDigits_ne_nil n)]
  unfold natDigits
  have hlt : n < 10 ^ (n + 1) := by
    calc n < 10 ^ n := Nat.lt_pow_self (by norm_num) n
      _ ≤ 10 ^ (n + 1) := Nat.pow_le_pow_right (by norm_num) (Nat.le_succ n)
  rw [natDigitsAux_parse (n + 1) n 0 hlt]
  simp

theorem natDigitsAux_digits : ∀ (fuel n : Nat), ∀ c ∈ natDigitsAux fuel n,
    ∃ m, m < 10 ∧ c = digitChr m := by
  intro fuel
  induction fuel with
  | zero => intro n c hc; simp [natDigitsAux] at hc
  | succ f ih =>
    intro n c hc
    unfold natDigitsAux at hc
    split at hc
    · rcases List.mem_singleton.mp hc with rfl
      rename_i hn
      exact ⟨n, hn, rfl⟩
    · rcases List.mem_append.mp hc with h1 | h2
      · exact ih (n / 10) c h1
      · rcases List.mem_singleton.mp h2 with rfl
        exact ⟨n % 10, Nat.mod_lt _ (by norm_num), rfl⟩

theorem splitDot_no_dot : ∀ l : List Char, ('.' ∉ l) → splitDot l = (l, none) := by
  intro l
  induction l with
  | nil => intro _; rfl
  | cons c t ih =>
    intro h
    have hc : c ≠ '.' := fun he => h (he ▸ List.mem_cons_self c t)
    have ht : '.' ∉ t := fun hm => h (List.mem_cons_of_mem c hm)
    unfold splitDot
    rw [if_neg hc, ih ht]

theorem natDigits_no_dot (n : Nat) : '.' ∉ natDigits n := by
  intro hm
  obtain ⟨m, hlt, he⟩ := natDigitsAux_digits (n + 1) n '.' hm
  exact digitChr_ne_dot m hlt he.symm

theorem parseUnsigned_natDigits (n : Nat) : parseUnsigned (natDigits n) = some (n, 1) := by
  have hsplit := splitDot_no_dot _ (natDigits_no_dot n)
  unfold parseUnsigned
  rw [hsplit]
  show Option.map (fun n => (n, 1)) (parseNatChars (natDigits n)) = some (n, 1)
  rw [parse_natDigits n]
  rfl

theorem parseNumChars_minus (t : List Char) :
    parseNumChars ('-' :: t) =
      (parseUnsigned t).map (fun p => mkRat (-(p.1 : Int)) p.2) := by
  simp [parseNumChars]

theorem parseNumChars_cons (c : Char) (t : List Char) (h1 : c ≠ '-') (h2 : c ≠ '+') :
    parseNumChars (c :: t) =
      (parseUnsigned (c :: t)).map (fun p => mkRat (p.1 : Int) p.2) := by
  simp only [parseNumChars]
  rw [if_neg h1, if_neg h2]

/-- Round trip for the decimal rendering of an `int64` cell. -/
theorem parse_intChars (n : Int) : parseNumChars (intChars n) = some (n : ℚ) := by
  unfold intChars
  by_cases hneg : n < 0
  · rw [if_pos hneg]
    rw [parseNumChars_minus, parseUnsigned_natDigits]
    simp only [Option.map_some']
    rw [Rat.mkRat_one]
    have hv : -((((-n).toNat : Nat) : Int)) = n := by omega
    rw [hv]
  · rw [if_neg hneg]
    cases hd : natDigits n.toNat with
    | nil => exact absurd hd (natDigits_ne_nil _)
    | cons c t =>
      obtain ⟨m, hm, hc⟩ := natDigitsAux_digits _ _ c (hd ▸ List.mem_cons_self c t)
      have hc1 : c ≠ '-' := by rw [hc]; exact digitChr_ne_minus m hm
      have hc2 : c ≠ '+' := by rw [hc]; exact digitChr_ne_plus m hm
      rw [parseNumChars_cons c t hc1 hc2, ← hd, parseUnsigned_natDigits]
      simp only [Option.map_some']
      rw [Rat.mkRat_one]
      have hv : (((n.toNat : Nat) : Int)) = n := by omega
      rw [hv]

/-- The dates Python's `datetime.date` can hold (year 1-9999); `str`
zero-pads the year to four digits, the month and day to two. -/
def dateOk (d : Date) : Prop :=
  0 ≤ d.year ∧ d.year ≤ 9999 ∧ 1 ≤ d.month ∧ d.month ≤ 12 ∧ 1 ≤ d.day ∧ d.day ≤ 31

theorem digitVal_digitChr_mod (x : Nat) : digitVal (digitChr (x % 10)) = some (x % 10) :=
  digitVal_digitChr _ (Nat.mod_lt _ (by norm_num))

/-- Round trip for the ISO rendering of a calendar date. -/
theorem parse_fmtDate (d : Date) (h : dateOk d) : parseDateChars (fmtDate d) = some d := by
  obtain ⟨h1, h2, h3, h4, h5, h6⟩ := h
  unfold fmtDate pad4 pad2
  simp only [List.cons_append, List.nil_append]
  simp only [parseDateChars, digitVal_digitChr_mod, obind_some]
  rw [show ((d.year.toNat / 1000 % 10 * 1000 + d.year.toNat / 100 % 10 * 100 +
      d.year.toNat / 10 % 10 * 10 + d.year.toNat % 10 : Nat) : Int) = d.year by omega]
  rw [show ((d.month.toNat / 10 % 10 * 10 + d.month.toNat % 10 : Nat) : Int) = d.month by
    omega]
  rw [show ((d.day.toNat / 10 % 10 * 10 + d.day.toNat % 10 : Nat) : Int) = d.day by omega]
  rw [if_pos ⟨h3, h4, h5, h6⟩]

theorem range_map_getD {α β : Type} (col : List α) (dflt : α) (g : α → β) :
    (List.range col.length).map (fun k => g (col.getD k dflt)) = col.map g := by
  apply List.ext_getElem
  · simp
  · intro i h1 h2
    simp only [List.getElem_map, List.getElem_range]
    rw [List.getD_eq_getElem]

/-- Writing a rectangular frame to csv rows and reading the rows back
gives the frame with every cell rendered and re-read. -/
theorem reparse_toCsv (df : Frame) (n : Nat) (hn : ∀ p ∈ df, p.2.length = n) :
    reparseFrame (toCsvTable df) =
      df.map (fun p => (p.1, p.2.map (fun c => reparseCell ⟨fmtCell c⟩))) := by
  cases hdf : df with
  | nil => rfl
  | cons p0 rest =>
    have hn0 : ((df.head?).map (fun p => p.2.length)).getD 0 = n := by
      rw [hdf]
      simp only [List.head?_cons, Option.map_some', Option.getD_some]
      exact hn p0 (hdf ▸ List.mem_cons_self p0 rest)
    rw [← hdf]
    unfold toCsvTable
    rw [hn0]
    unfold reparseFrame
    apply List.ext_getElem
    · simp [labels]
    · intro j h1 h2
      have hj : j < df.length := by
        simpa [labels] using h1
      simp only [List.getElem_map, List.getElem_range]
      have hfst : (labels df).getD j "" = (df[j]).1 := by
        rw [List.getD_eq_getElem]
        · simp [labels]
        · simpa [labels] using hj
      rw [hfst]
      congr 1
      rw [List.map_map]
      have hinner : ∀ i : Nat,
          ((df.map (fun p => ((⟨fmtCell (p.2.getD i Cell.na)⟩ : String)))).getD j "") =
            (⟨fmtCell ((df[j]).2.getD i Cell.na)⟩ : String) := by
        intro i
        rw [List.getD_eq_getElem]
        · simp
        · simpa using hj
      calc (List.range n).map ((fun r => reparseCell (r.getD j "")) ∘
              (fun i => df.map (fun p => ((⟨fmtCell (p.2.getD i Cell.na)⟩ : String)))))
          = (List.range n).map (fun i => reparseCell
              (⟨fmtCell ((df[j]).2.getD i Cell.na)⟩ : String)) := by
            apply List.map_congr_left
            intro i _
            simp only [Function.comp]
            rw [hinner i]
        _ = (df[j]).2.map (fun c => reparseCell (⟨fmtCell c⟩ : String)) := by
            rw [← hn (df[j]) (List.getElem_mem hj)]
            exact range_map_getD (df[j]).2 Cell.na
              (fun c => reparseCell (⟨fmtCell c⟩ : String))

theorem mapME_ok_map {a b c' : Type} (f : b → Except String c') (gen : a → b)
    (g : a → c') : ∀ l : List a, (∀ x ∈ l, f (gen x) = Except.ok (g x)) →
    mapME f (l.map gen) = Except.ok (l.map g) := by
  intro l
  induction l with
  | nil => intro _; rfl
  | cons x t ih =>
    intro h
    have hx := h x (List.mem_cons_self x t)
    have ht := ih (fun y hy => h y (List.mem_cons_of_mem x hy))
    simp [mapME, hx, ht, ebind_ok]

theorem maskFilter_replicate_true : ∀ (n : Nat) (v : List Cell), v.length = n →
    maskFilter (List.replicate n true) v = v := by
  intro n
  induction n with
  | zero =>
    intro v hv
    rw [List.length_eq_zero] at hv
    subst hv
    rfl
  | succ m ih =>
    intro v hv
    cases v with
    | nil => simp at hv
    | cons c t =>
      rw [List.replicate_succ, maskFilter_cons, if_pos rfl,
        ih t (by simpa using hv)]

theorem intChars_ne_nil (n : Int) : intChars n ≠ [] := by
  unfold intChars
  split
  · exact List.cons_ne_nil _ _
  · exact natDigits_ne_nil _

theorem reparse_int_cell (n : Int) :
    reparseCell ⟨fmtCell (Cell.int n)⟩ = Cell.text ⟨intChars n⟩ := by
  unfold reparseCell fmtCell
  rw [if_neg]
  intro hemp
  rw [List.isEmpty_iff] at hemp
  exact intChars_ne_nil n hemp

theorem truncQ_intCast (n : Int) : truncQ ((n : Int) : ℚ) = n := by
  unfold truncQ
  rw [Rat.num_intCast, Rat.den_intCast, Nat.cast_one]
  exact Int.tdiv_one n

theorem toNumericQ_intChars (n : Int) :
    toNumericQ (Cell.text ⟨intChars n⟩) = some ((n : Int) : ℚ) := by
  unfold toNumericQ
  show parseNumChars (intChars n) = _
  exact parse_intChars n

/-- C8: exporting a cleaned (filtered) table as comma-separated text with
a header row and no index column, then re-parsing that text through the
load pipeline, yields the same `(date, walk_ins, test_drives)` values in
every row, with `conversion_rate` recomputed identically — the whole
table round-trips. -/
theorem c8_csv_round_trip (ds : List Date) (ws ts : List Int)
    (hw : ws.length = ds.length) (ht : ts.length = ds.length)
    (hok : ∀ d ∈ ds, dateOk d) :
    load_data (reparseFrame (toCsvTable (cleanFrame ds ws ts))) =
      Except.ok (cleanFrame ds ws ts) := by
  have hrect : ∀ p ∈ cleanFrame ds ws ts, p.2.length = ds.length := by
    intro p hp
    simp only [cleanFrame, List.mem_cons, List.not_mem_nil, or_false] at hp
    rcases hp with rfl | rfl | rfl | rfl
    · simp
    · simp [hw]
    · simp [ht]
    · simp [List.length_zip, hw, ht]
  -- Step 0: re-reading the csv rows gives a frame of rendered text cells
  have h0 : reparseFrame (toCsvTable (cleanFrame ds ws ts)) =
      [("Date", ds.map (fun d => Cell.text ⟨fmtDate d⟩)),
       ("Walk-in Customer", ws.map (fun n => Cell.text ⟨intChars n⟩)),
       ("Test Drive", ts.map (fun n => Cell.text ⟨intChars n⟩)),
       ("Conversion Rate",
         ((List.zip ws ts).map (fun p => Cell.num (convRate (p.1 : ℚ) (p.2 : ℚ)))).map
           (fun c => reparseCell ⟨fmtCell c⟩))] := by
    rw [reparse_toCsv _ ds.length hrect]
    unfold cleanFrame
    simp only [List.map_cons, List.map_nil, List.map_map]
    have e2 : ws.map ((fun c => reparseCell (⟨fmtCell c⟩ : String)) ∘ Cell.int) =
        ws.map (fun n => Cell.text ⟨intChars n⟩) := by
      apply List.map_congr_left
      intro n _
      exact reparse_int_cell n
    have e3 : ts.map ((fun c => reparseCell (⟨fmtCell c⟩ : String)) ∘ Cell.int) =
        ts.map (fun n => Cell.text ⟨intChars n⟩) := by
      apply List.map_congr_left
      intro n _
      exact reparse_int_cell n
    have e1 : ds.map ((fun c => reparseCell (⟨fmtCell c⟩ : String)) ∘ Cell.date) =
        ds.map (fun d => Cell.text ⟨fmtDate d⟩) := by
      apply List.map_congr_left
      intro d _
      rfl
    rw [e1, e2, e3]
  rw [h0]
  -- Step 1: label stripping and renaming leave the csv header unchanged
  have h12 : renameCols (stripCols
      [("Date", ds.map (fun d => Cell.text ⟨fmtDate d⟩)),
       ("Walk-in Customer", ws.map (fun n => Cell.text ⟨intChars n⟩)),
       ("Test Drive", ts.map (fun n => Cell.text ⟨intChars n⟩)),
       ("Conversion Rate",
         ((List.zip ws ts).map (fun p => Cell.num (convRate (p.1 : ℚ) (p.2 : ℚ)))).map
           (fun c => reparseCell ⟨fmtCell c⟩))]) =
      [("Date", ds.map (fun d => Cell.text ⟨fmtDate d⟩)),
       ("Walk-in Customer", ws.map (fun n => Cell.text ⟨intChars n⟩)),
       ("Test Drive", ts.map (fun n => Cell.text ⟨intChars n⟩)),
       ("Conversion Rate",
         ((List.zip ws ts).map (fun p => Cell.num (convRate (p.1 : ℚ) (p.2 : ℚ)))).map
           (fun c => reparseCell ⟨fmtCell c⟩))] := by
    have s1 : stripLabel "Date" = "Date" := by decide
    have s2 : stripLabel "Walk-in Customer" = "Walk-in Customer" := by decide
    have s3 : stripLabel "Test Drive" = "Test Drive" := by decide
    have s4 : stripLabel "Conversion Rate" = "Conversion Rate" := by decide
    have r1 : renameLabel "Date" = "Date" := by decide
    have r2 : renameLabel "Walk-in Customer" = "Walk-in Customer" := by decide
    have r3 : renameLabel "Test Drive" = "Test Drive" := by decide
    have r4 : renameLabel "Conversion Rate" = "Conversion Rate" := by decide
    unfold stripCols renameCols
    simp [s1, s2, s3, s4, r1, r2, r3, r4]
  -- Step 2: the selection keeps the three required columns, dropping the
  -- re-read conversion column
  have h3 : selectRequired
      [("Date", ds.map (fun d => Cell.text ⟨fmtDate d⟩)),
       ("Walk-in Customer", ws.map (fun n => Cell.text ⟨intChars n⟩)),
       ("Test Drive", ts.map (fun n => Cell.text ⟨intChars n⟩)),
       ("Conversion Rate",
         ((List.zip ws ts).map (fun p => Cell.num (convRate (p.1 : ℚ) (p.2 : ℚ)))).map
           (fun c => reparseCell ⟨fmtCell c⟩))] =
      [("Date", ds.map (fun d => Cell.text ⟨fmtDate d⟩)),
       ("Walk-in Customer", ws.map (fun n => Cell.text ⟨intChars n⟩)),
       ("Test Drive", ts.map (fun n => Cell.text ⟨intChars n⟩))] := by
    rfl
  -- Step 3: date cleaning drops nothing (no cell is missing) and parses
  -- every rendered date back to its calendar date
  have hmask : (ds.map (fun d => Cell.text ⟨fmtDate d⟩)).map (fun c => !c.isna) =
      List.replicate ds.length true := by
    rw [List.map_map]
    have hfun : ((fun c => !Cell.isna c) ∘ (fun d => Cell.text ⟨fmtDate d⟩)) =
        (fun _ => true) := by
      funext d
      rfl
    rw [hfun]
    exact List.map_const' ds true
  have hparsed : mapME (fun c =>
      match toDatetime c with
      | some p => Except.ok (Cell.date p.1)
      | none => Except.error "unparseable date")
      (ds.map (fun d => Cell.text ⟨fmtDate d⟩)) = Except.ok (ds.map Cell.date) := by
    apply mapME_ok_map
    intro d hd
    have hdt : toDatetime (Cell.text ⟨fmtDate d⟩) = some (d, 0) := by
      unfold toDatetime
      show (parseDateChars (fmtDate d)).map _ = _
      rw [parse_fmtDate d (hok d hd)]
      rfl
    rw [hdt]
  have h4 : cleanDate
      [("Date", ds.map (fun d => Cell.text ⟨fmtDate d⟩)),
       ("Walk-in Customer", ws.map (fun n => Cell.text ⟨intChars n⟩)),
       ("Test Drive", ts.map (fun n => Cell.text ⟨intChars n⟩))] =
      Except.ok
        [("Date", ds.map Cell.date),
         ("Walk-in Customer", ws.map (fun n => Cell.text ⟨intChars n⟩)),
         ("Test Drive", ts.map (fun n => Cell.text ⟨intChars n⟩))] := by
    unfold cleanDate
    rw [if_pos (by rfl)]
    have hgs : getSeries
        [("Date", ds.map (fun d => Cell.text ⟨fmtDate d⟩)),
         ("Walk-in Customer", ws.map (fun n => Cell.text ⟨intChars n⟩)),
         ("Test Drive", ts.map (fun n => Cell.text ⟨intChars n⟩))] "Date" =
        Except.ok (ds.map (fun d => Cell.text ⟨fmtDate d⟩)) := by rfl
    rw [hgs, ebind_ok]
    simp only [hmask]
    rw [maskFilter_replicate_true ds.length _ (by simp), hparsed, ebind_ok]
    congr 1
    simp only [List.map_cons, List.map_nil]
    rw [maskFilter_replicate_true ds.length _ (by simp),
      maskFilter_replicate_true ds.length _ (by simp [hw]),
      maskFilter_replicate_true ds.length _ (by simp [ht])]
    unfold setCol
    simp
  -- Step 4: the two count columns re-parse to their integer values
  have hcoW : (ws.map (fun n => Cell.text ⟨intChars n⟩)).map
      (fun c => Cell.int (truncQ ((toNumericQ c).getD 0))) = ws.map Cell.int := by
    rw [List.map_map]
    apply List.map_congr_left
    intro n _
    show Cell.int (truncQ ((toNumericQ (Cell.text ⟨intChars n⟩)).getD 0)) = Cell.int n
    rw [toNumericQ_intChars]
    simp [truncQ_intCast]
  have hcoT : (ts.map (fun n => Cell.text ⟨intChars n⟩)).map
      (fun c => Cell.int (truncQ ((toNumericQ c).getD 0))) = ts.map Cell.int := by
    rw [List.map_map]
    apply List.map_congr_left
    intro n _
    show Cell.int (truncQ ((toNumericQ (Cell.text ⟨intChars n⟩)).getD 0)) = Cell.int n
    rw [toNumericQ_intChars]
    simp [truncQ_intCast]
  have h5 : cleanCount "Walk-in Customer"
      [("Date", ds.map Cell.date),
       ("Walk-in Customer", ws.map (fun n => Cell.text ⟨intChars n⟩)),
       ("Test Drive", ts.map (fun n => Cell.text ⟨intChars n⟩))] =
      Except.ok
        [("Date", ds.map Cell.date),
         ("Walk-in Customer", ws.map Cell.int),
         ("Test Drive", ts.map (fun n => Cell.text ⟨intChars n⟩))] := by
    unfold cleanCount
    rw [if_pos (by rfl)]
    have hgs : getSeries
        [("Date", ds.map Cell.date),
         ("Walk-in Customer", ws.map (fun n => Cell.text ⟨intChars n⟩)),
         ("Test Drive", ts.map (fun n => Cell.text ⟨intChars n⟩))] "Walk-in Customer" =
        Except.ok (ws.map (fun n => Cell.text ⟨intChars n⟩)) := by rfl
    rw [hgs, ebind_ok, hcoW]
    unfold setCol
    simp
  have h6 : cleanCount "Test Drive"
      [("Date", ds.map Cell.date),
       ("Walk-in Customer", ws.map Cell.int),
       ("Test Drive", ts.map (fun n => Cell.text ⟨intChars n⟩))] =
      Except.ok
        [("Date", ds.map Cell.date),
         ("Walk-in Customer", ws.map Cell.int),
         ("Test Drive", ts.map Cell.int)] := by
    unfold cleanCount
    rw [if_pos (by rfl)]
    have hgs : getSeries
        [("Date", ds.map Cell.date),
         ("Walk-in Customer", ws.map Cell.int),
         ("Test Drive", ts.map (fun n => Cell.text ⟨intChars n⟩))] "Test Drive" =
        Except.ok (ts.map (fun n => Cell.text ⟨intChars n⟩)) := by rfl
    rw [hgs, ebind_ok, hcoT]
    unfold setCol
    simp
  -- Step 5: the conversion column is recomputed from the same integers
  have h7 : addConversion
      [("Date", ds.map Cell.date),
       ("Walk-in Customer", ws.map Cell.int),
       ("Test Drive", ts.map Cell.int)] = Except.ok (cleanFrame ds ws ts) := by
    unfold addConversion
    rw [if_pos (by rfl)]
    have hgsW : getSeries
        [("Date", ds.map Cell.date),
         ("Walk-in Customer", ws.map Cell.int),
         ("Test Drive", ts.map Cell.int)] "Walk-in Customer" =
        Except.ok (ws.map Cell.int) := by rfl
    have hgsT : getSeries
        [("Date", ds.map Cell.date),
         ("Walk-in Customer", ws.map Cell.int),
         ("Test Drive", ts.map Cell.int)] "Test Drive" =
        Except.ok (ts.map Cell.int) := by rfl
    have hmw : mapME cellNum (ws.map Cell.int) =
        Except.ok (ws.map (fun n : Int => (n : ℚ))) :=
      mapME_ok_map cellNum Cell.int (fun n : Int => (n : ℚ)) ws (fun n _ => rfl)
    have hmt : mapME cellNum (ts.map Cell.int) =
        Except.ok (ts.map (fun n : Int => (n : ℚ))) :=
      mapME_ok_map cellNum Cell.int (fun n : Int => (n : ℚ)) ts (fun n _ => rfl)
    rw [hgsW, ebind_ok, hgsT, ebind_ok, hmw, ebind_ok, hmt, ebind_ok]
    unfold cleanFrame
    rw [List.zip_map, List.map_map]
    rfl
  -- assemble the pipeline
  unfold load_data
  simp only []
  rw [h12, h3, h4, ebind_ok, h5, ebind_ok, h6, ebind_ok, h7]

/-- Witness for C8 on a concrete two-row filtered table. -/
theorem c8_csv_round_trip_witness :
    load_data (reparseFrame (toCsvTable
      (cleanFrame [⟨2024, 1, 5⟩, ⟨2024, 1, 6⟩] [10, 4] [2, 4]))) =
      Except.ok (cleanFrame [⟨2024, 1, 5⟩, ⟨2024, 1, 6⟩] [10, 4] [2, 4]) :=
  c8_csv_round_trip [⟨2024, 1, 5⟩, ⟨2024, 1, 6⟩] [10, 4] [2, 4]
    (by decide) (by decide)
    (by
      intro d hd
      rcases List.mem_cons.mp hd with h1 | h2
      · rw [h1]; exact ⟨by decide, by decide, by decide, by decide, by decide, by decide⟩
      · rcases List.mem_cons.mp h2 with h3 | h4
        · rw [h3]; exact ⟨by decide, by decide, by decide, by decide, by decide, by decide⟩
        · simp at h4)

end Dashboard
